import Mathlib

/-!
Verification development for the NSLA v2 neuro-symbolic legal reasoning
pipeline.  The Python sources under `app/` are shallowly embedded here:
pure fragments become Lean functions over `String`/`List`, the Z3 solver
is abstracted as an oracle state (check result, entailment oracle,
assertion list, unsat core), and the LLM backends are abstracted as call
oracles.  Python `str` values are modelled by Lean `String` (a wrapper
around `List Char`); Python dictionaries that are only iterated/looked-up
are modelled as association lists preserving insertion order.

ASCII approximations: Python `str.lower`, `str.strip` and the `\w`/`\s`
regex classes are Unicode-aware; the embedding implements their ASCII
behaviour, which coincides with Python on every string manipulated by the
pipeline (DSL expressions and the ontology tables are ASCII except for
accented lowercase Italian letters, which all the above maps to
themselves).
-/

namespace NSLA

/-- Python whitespace test used by `str.strip` / regex `\s` (ASCII part). -/
def pyWS (c : Char) : Bool :=
  c = ' ' || c = '\t' || c = '\n' || c = '\r' || c = '\x0b' || c = '\x0c'

/-- `str.strip()` on a character list: drop whitespace from both ends. -/
def stripL (l : List Char) : List Char :=
  ((l.dropWhile pyWS).reverse.dropWhile pyWS).reverse

/-- Python `str.strip()`. -/
def pyStrip (s : String) : String := ⟨stripL s.data⟩

/-- Python `str.lower()` (ASCII; identity on the accented lowercase letters
that occur in the ontology tables). -/
def pyLower (s : String) : String := ⟨s.data.map Char.toLower⟩

/-- Substring search on character lists, mirroring Python `sub in hay`. -/
def containsSubL (needle : List Char) : List Char → Bool
  | [] => needle.isPrefixOf []
  | c :: rest => needle.isPrefixOf (c :: rest) || containsSubL needle rest

/-- Python `sub in hay` (substring containment). -/
def pyContains (hay sub : String) : Bool := containsSubL sub.data hay.data

/-- Python `s.startswith(p)`. -/
def pyStartsWith (s p : String) : Bool := p.data.isPrefixOf s.data

/-- Python `s.endswith(p)`. -/
def pyEndsWith (s p : String) : Bool := p.data.isSuffixOf s.data

/-- Python `s.split(sep, 1)` for a one-character separator: `none` when the
separator does not occur, otherwise the pieces before/after its first
occurrence. -/
def splitOnceL (sep : Char) : List Char → Option (List Char × List Char)
  | [] => none
  | c :: rest =>
    if c = sep then some ([], rest)
    else match splitOnceL sep rest with
      | some (l, r) => some (c :: l, r)
      | none => none

/-- Python `s.split(sep, 1)` on strings. -/
def pySplitOnce (s : String) (sep : Char) : Option (String × String) :=
  match splitOnceL sep s.data with
  | some (l, r) => some (⟨l⟩, ⟨r⟩)
  | none => none

/-- Python `s.split(sep)` for a one-character separator (keeps empty pieces,
exactly like `str.split` with an explicit separator). -/
def splitAllL (sep : Char) : List Char → List (List Char)
  | [] => [[]]
  | c :: rest =>
    if c = sep then [] :: splitAllL sep rest
    else match splitAllL sep rest with
      | [] => [[c]]
      | piece :: more => (c :: piece) :: more

/-- Python `s.split(sep)` on strings. -/
def pySplitAll (s : String) (sep : Char) : List String :=
  (splitAllL sep s.data).map (fun l => ⟨l⟩)

/-- Python `sep.join(parts)`. -/
def pyJoin (sep : String) : List String → String
  | [] => ""
  | [p] => p
  | p :: rest => p ++ sep ++ pyJoin sep rest

/-- Python `s[n:]` (drop the first `n` characters). -/
def pyDrop (s : String) (n : Nat) : String := ⟨s.data.drop n⟩

/-- Python `s[:-1]` (drop the last character). -/
def pyDropLast (s : String) : String := ⟨s.data.dropLast⟩

/-- First-seen-order deduplication (the `seen` set + append idiom used all
over the sources). -/
def dedupFirstSeen (l : List String) : List String :=
  go [] l
where
  go (seen : List String) : List String → List String
    | [] => []
    | x :: rest =>
      if x ∈ seen then go seen rest
      else x :: go (x :: seen) rest

/-- Ascending insertion into a string list sorted by `<` (code-point
lexicographic, as Python `sorted`). -/
def sortInsert (x : String) : List String → List String
  | [] => [x]
  | y :: rest => if decide (y < x) then y :: sortInsert x rest else x :: y :: rest

/-- Python `sorted` on a list of strings. -/
def pySorted (l : List String) : List String := l.foldr sortInsert []

/-- Regex `[A-Za-z_]` (identifier start). -/
def isIdentStart (c : Char) : Bool := c.isAlpha || c = '_'

/-- Regex `[A-Za-z0-9_]` (identifier continuation, also regex `\w` ASCII). -/
def isIdentChar (c : Char) : Bool := isIdentStart c || c.isDigit

/-! ## Ontology registry (`app/logic_dsl.py`, `app/ontology_utils.py`) -/

/-- `logic_dsl.SortSpec`; `parent` is the Python field `extends`. -/
structure SortSpec where
  name : String
  description : String
  parent : Option String
deriving DecidableEq, Repr

/-- `logic_dsl.SORTS`, as the insertion-ordered association list underlying
the Python dict (keys are the `name` fields). -/
def SORTS : List SortSpec := [
  ⟨"Entity", "Sort generica di fallback per input non canonico", none⟩,
  ⟨"Soggetto", "Parte generica di un rapporto giuridico", none⟩,
  ⟨"Debitore", "Parte obbligata all\x27adempimento", some "Soggetto"⟩,
  ⟨"Creditore", "Parte titolare della pretesa", some "Soggetto"⟩,
  ⟨"Professionista", "Operatore professionale", some "Debitore"⟩,
  ⟨"Consumatore", "Persona fisica che agisce per scopi estranei all\x27attività professionale", some "Soggetto"⟩,
  ⟨"Vettore", "Soggetto che esegue il trasporto di cose o persone", some "Soggetto"⟩,
  ⟨"Speditore", "Soggetto che affida il bene al vettore", some "Soggetto"⟩,
  ⟨"Destinatario", "Soggetto che riceve il bene trasportato", some "Soggetto"⟩,
  ⟨"Mittente", "Soggetto che consegna la merce al vettore", some "Soggetto"⟩,
  ⟨"Contratto", "Accordo negoziale", none⟩,
  ⟨"Prestazione", "Oggetto dell\x27obbligazione", none⟩,
  ⟨"Danno", "Pregiudizio economico o non patrimoniale", none⟩,
  ⟨"Evento", "Fatto rilevante ai fini causali", none⟩,
  ⟨"Bene", "Oggetto materiale o immateriale di diritti", none⟩,
  ⟨"BeneRegistrato", "Bene mobile soggetto a registrazione", some "Bene"⟩,
  ⟨"Marchio", "Segno distintivo registrato", some "Bene"⟩,
  ⟨"Testamento", "Atto di ultima volontà", none⟩,
  ⟨"Titolo", "Documento astrattamente idoneo a trasferire diritti", none⟩,
  ⟨"Possesso", "Situazione di fatto corrispondente all\x27esercizio di un diritto reale", none⟩,
  ⟨"MisuraCautelare", "Misura cautelare personale o reale", none⟩,
  ⟨"Pena", "Sanzione penale", none⟩,
  ⟨"Procedura", "Sequenza di atti processuali/amministrativi", none⟩,
  ⟨"StrutturaSanitaria", "Ente sanitario contrattualmente obbligato", some "Soggetto"⟩]

/-- Membership in the `SORTS` dict (`canonical_name in SORTS`). -/
def inSORTS (name : String) : Bool := SORTS.any (fun s => s.name = name)

/-- `SORTS.get(name)`. -/
def sortsGet (name : String) : Option SortSpec := SORTS.find? (fun s => s.name = name)

/-- `ontology_utils.MANUAL_SORT_ALIASES`. -/
def MANUAL_SORT_ALIASES : List (String × String) := [
  ("soggetto obbligato all\x27adempimento", "Debitore"),
  ("soggetto debitore", "Debitore"),
  ("soggetto titolare della pretesa", "Creditore"),
  ("soggetto creditore", "Creditore"),
  ("accordo che genera obbligazioni", "Contratto"),
  ("accordo tra parti che genera obbligazioni", "Contratto"),
  ("accordo tra parti che genera obbligazioni contrattuali", "Contratto"),
  ("accordo tra parti", "Contratto"),
  ("soggetto giuridico coinvolto nel rapporto obbligatorio", "Soggetto"),
  ("pregiudizio economico o non economico", "Danno"),
  ("pregiudizio economico", "Danno"),
  ("pregiudizio non economico", "Danno"),
  ("bene registrato", "BeneRegistrato"),
  ("marchio registrato", "Marchio"),
  ("misura cautelare personale", "MisuraCautelare"),
  ("misura cautelare reale", "MisuraCautelare"),
  ("sanzione penale", "Pena"),
  ("sanzione amministrativa", "Pena"),
  ("struttura sanitaria", "StrutturaSanitaria"),
  ("procedura esecutiva", "Procedura"),
  ("testamento olografo", "Testamento"),
  ("sort", "Entity")]

/-- Python dict assignment `m[k] = v` on an insertion-ordered association
list: overwrite in place when the key exists, append otherwise. -/
def dictInsert {α : Type} (m : List (String × α)) (k : String) (v : α) : List (String × α) :=
  if m.any (fun p => p.1 = k) then m.map (fun p => if p.1 = k then (k, v) else p)
  else m ++ [(k, v)]

/-- A sequence of Python dict assignments starting from `{}`. -/
def buildDict (entries : List (String × String)) : List (String × String) :=
  entries.foldl (fun m p => dictInsert m p.1 p.2) []

/-- The entry sequence of `ontology_utils._build_sort_alias_map`:
lowercased sort names and stripped-lowercased descriptions map to the
canonical name, then the manual aliases are assigned (later assignments
overwrite earlier ones, as in a Python dict). -/
def sortAliasEntries : List (String × String) :=
  (SORTS.flatMap fun s =>
    (pyLower s.name, s.name) ::
      (let d := pyLower (pyStrip s.description)
       if d = "" then [] else [(d, s.name)]))
  ++ MANUAL_SORT_ALIASES

/-- `ontology_utils.SORT_ALIAS_MAP`, materialised; `SORT_ALIAS_MAP_builds`
proves it equal to the faithful dict construction. -/
def SORT_ALIAS_MAP : List (String × String) := [
  ("entity", "Entity"),
  ("sort generica di fallback per input non canonico", "Entity"),
  ("soggetto", "Soggetto"),
  ("parte generica di un rapporto giuridico", "Soggetto"),
  ("debitore", "Debitore"),
  ("parte obbligata all\x27adempimento", "Debitore"),
  ("creditore", "Creditore"),
  ("parte titolare della pretesa", "Creditore"),
  ("professionista", "Professionista"),
  ("operatore professionale", "Professionista"),
  ("consumatore", "Consumatore"),
  ("persona fisica che agisce per scopi estranei all\x27attività professionale", "Consumatore"),
  ("vettore", "Vettore"),
  ("soggetto che esegue il trasporto di cose o persone", "Vettore"),
  ("speditore", "Speditore"),
  ("soggetto che affida il bene al vettore", "Speditore"),
  ("destinatario", "Destinatario"),
  ("soggetto che riceve il bene trasportato", "Destinatario"),
  ("mittente", "Mittente"),
  ("soggetto che consegna la merce al vettore", "Mittente"),
  ("contratto", "Contratto"),
  ("accordo negoziale", "Contratto"),
  ("prestazione", "Prestazione"),
  ("oggetto dell\x27obbligazione", "Prestazione"),
  ("danno", "Danno"),
  ("pregiudizio economico o non patrimoniale", "Danno"),
  ("evento", "Evento"),
  ("fatto rilevante ai fini causali", "Evento"),
  ("bene", "Bene"),
  ("oggetto materiale o immateriale di diritti", "Bene"),
  ("beneregistrato", "BeneRegistrato"),
  ("bene mobile soggetto a registrazione", "BeneRegistrato"),
  ("marchio", "Marchio"),
  ("segno distintivo registrato", "Marchio"),
  ("testamento", "Testamento"),
  ("atto di ultima volontà", "Testamento"),
  ("titolo", "Titolo"),
  ("documento astrattamente idoneo a trasferire diritti", "Titolo"),
  ("possesso", "Possesso"),
  ("situazione di fatto corrispondente all\x27esercizio di un diritto reale", "Possesso"),
  ("misuracautelare", "MisuraCautelare"),
  ("misura cautelare personale o reale", "MisuraCautelare"),
  ("pena", "Pena"),
  ("sanzione penale", "Pena"),
  ("procedura", "Procedura"),
  ("sequenza di atti processuali/amministrativi", "Procedura"),
  ("strutturasanitaria", "StrutturaSanitaria"),
  ("ente sanitario contrattualmente obbligato", "StrutturaSanitaria"),
  ("soggetto obbligato all\x27adempimento", "Debitore"),
  ("soggetto debitore", "Debitore"),
  ("soggetto titolare della pretesa", "Creditore"),
  ("soggetto creditore", "Creditore"),
  ("accordo che genera obbligazioni", "Contratto"),
  ("accordo tra parti che genera obbligazioni", "Contratto"),
  ("accordo tra parti che genera obbligazioni contrattuali", "Contratto"),
  ("accordo tra parti", "Contratto"),
  ("soggetto giuridico coinvolto nel rapporto obbligatorio", "Soggetto"),
  ("pregiudizio economico o non economico", "Danno"),
  ("pregiudizio economico", "Danno"),
  ("pregiudizio non economico", "Danno"),
  ("bene registrato", "BeneRegistrato"),
  ("marchio registrato", "Marchio"),
  ("misura cautelare personale", "MisuraCautelare"),
  ("misura cautelare reale", "MisuraCautelare"),
  ("sanzione amministrativa", "Pena"),
  ("struttura sanitaria", "StrutturaSanitaria"),
  ("procedura esecutiva", "Procedura"),
  ("testamento olografo", "Testamento"),
  ("sort", "Entity")]

/-- `ontology_utils.resolve_sort_alias` (every call site in the repository
uses the default `default="Entity"`, which is inlined here). -/
def resolve_sort_alias (name : Option String) : String :=
  match name with
  | none => "Entity"
  | some raw =>
    if raw = "" then "Entity"
    else
      let key := pyStrip raw
      match SORT_ALIAS_MAP.lookup (pyLower key) with
      | some canonical => canonical
      | none =>
        let lowered := pyLower key
        if pyContains lowered "obbligat" then "Debitore"
        else if pyContains lowered "titolare" || pyContains lowered "creditor" then "Creditore"
        else if pyContains lowered "accordo" || pyContains lowered "contratt" then "Contratto"
        else if key = "" then "Entity"
        else key

/-- `logic_dsl.PredicateSpec` (the `description` field is carried by no
claim-relevant computation - the predicate alias map is built from names and
synonyms only - and is omitted). -/
structure PredicateSpec where
  name : String
  args : List String
  synonyms : List String
deriving DecidableEq, Repr

/-- `logic_dsl.PREDICATES`.  The Python dict literal lists
`ResponsabilitaMedicaContrattuale` twice with identical content; dict
semantics keep a single entry, reproduced here. -/
def PREDICATES : List PredicateSpec := [
  ⟨"Contratto", ["Contratto"], ["contratto valido", "contratto esistente"]⟩,
  ⟨"HaObbligo", ["Debitore", "Creditore", "Contratto"],
    ["ha obbligo", "obbligo contrattuale", "rapporto obbligatorio"]⟩,
  ⟨"ContrattoValido", ["Debitore", "Contratto"], ["validità contratto", "requisiti contratto"]⟩,
  ⟨"Consenso", ["Soggetto", "Contratto"], ["accordo di volontà"]⟩,
  ⟨"CapacitaContrattuale", ["Soggetto"], ["capacità di agire"]⟩,
  ⟨"CausaLegittima", ["Contratto"], ["causa lecita"]⟩,
  ⟨"OggettoDeterminato", ["Contratto"], ["oggetto determinato"]⟩,
  ⟨"FormaPrescritta", ["Contratto"], ["forma richiesta"]⟩,
  ⟨"Inadempimento", ["Debitore", "Contratto"], ["violazione contratto", "mancato adempimento"]⟩,
  ⟨"Adempimento", ["Debitore", "Contratto"], ["esecuzione prestazione"]⟩,
  ⟨"Mora", ["Debitore"], ["mora debendi"]⟩,
  ⟨"DovereDiligenza", ["Debitore", "Prestazione"], ["standard professionale"]⟩,
  ⟨"ComportamentoDiligente", ["Debitore", "Prestazione"], ["condotta diligente"]⟩,
  ⟨"Colpa", ["Debitore", "Evento"], ["negligenza"]⟩,
  ⟨"Imputabilita", ["Debitore", "Contratto"], ["colpa del debitore"]⟩,
  ⟨"ResponsabileColpa", ["Debitore", "Danno"], ["responsabilità per colpa"]⟩,
  ⟨"ResponsabilitaContrattuale", ["Debitore", "Creditore", "Contratto"],
    ["responsabilità per inadempimento"]⟩,
  ⟨"ResponsabilitaCivileColpa", ["Soggetto", "Danno"], ["responsabilità aquiliana"]⟩,
  ⟨"ResponsabilitaMedicaContrattuale", ["StrutturaSanitaria", "Soggetto"],
    ["responsabilità medica"]⟩,
  ⟨"DannoPatrimoniale", ["Soggetto"], ["perdita economica"]⟩,
  ⟨"NessoCausale", ["Evento", "Danno"], ["collegamento causale"]⟩,
  ⟨"Risarcimento", ["Debitore", "Creditore", "Danno"], ["risarcimento del danno", "indennizzo"]⟩,
  ⟨"RisarcimentoIllecito", ["Soggetto", "Soggetto", "Danno"], ["responsabilità aquiliana"]⟩,
  ⟨"DifettoConformita", ["Bene"], ["difetto di conformità"]⟩,
  ⟨"DirittoSceltaRemedy", ["Consumatore", "Bene"], ["diritti garanzia legale"]⟩,
  ⟨"ContrattoAdesione", ["Contratto"], ["contratto di adesione"]⟩,
  ⟨"PredeterminatoDa", ["Contratto", "Professionista"], ["predisposto da"]⟩,
  ⟨"NonNegoziabileDa", ["Contratto", "Consumatore"], ["non negoziabile"]⟩,
  ⟨"PuoSoloAccettareOppureRifiutare", ["Consumatore", "Contratto"], ["take it or leave it"]⟩,
  ⟨"TrascrizioneOpponibileATerzi", ["Contratto"], ["opponibilità trascrizione"]⟩,
  ⟨"PossessoContinuato", ["Soggetto", "Bene"], ["possesso continuativo"]⟩,
  ⟨"PossessoPubblico", ["Soggetto", "Bene"], ["possesso pacifico"]⟩,
  ⟨"AnimusDomini", ["Soggetto", "Bene"], ["animo del proprietario", "animus domini"]⟩,
  ⟨"DurataPossesso", ["Soggetto", "Bene"], ["durata possesso", "duratapossesso20anni"]⟩,
  ⟨"BuonaFede", ["Soggetto"], ["buona fede"]⟩,
  ⟨"TitoloIdoneo", ["Titolo", "BeneRegistrato"], ["titolo valido"]⟩,
  ⟨"UsucapioneOrdinaria", ["Soggetto", "Bene"], ["usucapione ventennale"]⟩,
  ⟨"UsucapioneAbbreviata", ["Soggetto", "BeneRegistrato"], ["usucapione biennale"]⟩,
  ⟨"PerditaBene", ["Bene"], ["perdita della merce", "perdita bene"]⟩,
  ⟨"AvariaBene", ["Bene"], ["danneggiamento bene", "avaria della merce"]⟩,
  ⟨"PerditaAvaria", ["Bene"], ["perdita o avaria", "perditavaria"]⟩,
  ⟨"ContrattoTrasporto", ["Contratto"], ["contratto di trasporto"]⟩,
  ⟨"EventoInadempimento", ["Debitore", "Contratto"], ["evento inadempimento"]⟩,
  ⟨"CausaNonImputabile", ["Debitore", "Contratto"], ["caso fortuito", "causa non imputabile"]⟩,
  ⟨"RivendicazioneProprietario", ["Soggetto", "Bene"], ["rivendicazione del proprietario"]⟩,
  ⟨"IscrizioneRegistro", ["BeneRegistrato"], ["iscrizione registro pubblico", "iscrizione pra"]⟩,
  ⟨"NonRivendicato", ["BeneRegistrato"],
    ["nessuna rivendicazione", "nessuna_rivendicazione", "nessunarivendicazione"]⟩,
  ⟨"Riciclaggio", ["Soggetto"], ["lavaggio di denaro"]⟩,
  ⟨"ContraffazioneMarchio", ["Soggetto", "Marchio"], ["contraffazione marchio"]⟩,
  ⟨"MisuraCautelarePersonale", ["MisuraCautelare"], ["misura personale"]⟩,
  ⟨"MisuraCautelareReale", ["MisuraCautelare"], ["misura reale"]⟩,
  ⟨"Multa", ["Pena"], ["pena pecuniaria delitto"]⟩,
  ⟨"Ammenda", ["Pena"], ["pena pecuniaria contravvenzione"]⟩,
  ⟨"TrasportoResponsabilitaVettore", ["Soggetto", "Soggetto", "Bene"],
    ["responsabilità vettore"]⟩,
  ⟨"SospensioneEsecuzioneForzata", ["Procedura"], ["sospensione esecuzione"]⟩]

/-- `PREDICATES.get(name)`. -/
def predicatesGet (name : String) : Option PredicateSpec :=
  PREDICATES.find? (fun s => s.name = name)

/-- `ontology_utils.MANUAL_PREDICATE_ALIASES`. -/
def MANUAL_PREDICATE_ALIASES : List (String × String) := [
  ("responsabilitacontrattuale", "ResponsabilitaContrattuale"),
  ("responsabilita_contrattuale", "ResponsabilitaContrattuale"),
  ("inadempimento", "Inadempimento"),
  ("mora del debitore", "Mora"),
  ("dannopatrimoniale", "DannoPatrimoniale"),
  ("ogggettononillecito", "OggettoDeterminato"),
  ("oggettononillecito", "OggettoDeterminato"),
  ("ognettodeterminato", "OggettoDeterminato"),
  ("causanonillecita", "CausaLegittima"),
  ("possessopacifico", "PossessoPubblico"),
  ("animusdomini", "AnimusDomini"),
  ("duratapossesso20anni", "DurataPossesso"),
  ("duratapossessoventianni", "DurataPossesso"),
  ("duratapossessoalmeno20anni", "DurataPossesso"),
  ("duratapossessoalmeno2anni", "DurataPossesso"),
  ("duratapossessominore2anni", "DurataPossesso"),
  ("duratapossessominoredueanni", "DurataPossesso"),
  ("perditabene", "PerditaBene"),
  ("avariabene", "AvariaBene"),
  ("perditavaria", "PerditaAvaria"),
  ("rivendicazioneproprietario", "RivendicazioneProprietario"),
  ("rivendicazione", "RivendicazioneProprietario"),
  ("iscrizioneregistro", "IscrizioneRegistro"),
  ("contrattotrasporto", "ContrattoTrasporto"),
  ("eventoinadempimento", "EventoInadempimento"),
  ("causanonimputabile", "CausaNonImputabile"),
  ("nonrivendicato", "NonRivendicato"),
  ("nessuna rivendicazione", "NonRivendicato"),
  ("nessuna_rivendicazione", "NonRivendicato"),
  ("nessunarivendicazione", "NonRivendicato")]

/-- The entry sequence of `ontology_utils._build_predicate_alias_map`:
lowercased predicate names and stripped-lowercased synonyms map to the
canonical name, then the manual aliases (keys lowercased) are assigned;
later assignments overwrite earlier ones as in a Python dict (e.g. the
synonym shared by `ResponsabilitaCivileColpa` and `RisarcimentoIllecito`
ends up mapping to the latter). -/
def predicateAliasEntries : List (String × String) :=
  (PREDICATES.flatMap fun s =>
    (pyLower s.name, s.name) ::
      (s.synonyms.filterMap fun syn =>
        let key := pyLower (pyStrip syn)
        if key = "" then none else some (key, s.name)))
  ++ MANUAL_PREDICATE_ALIASES.map (fun p => (pyLower p.1, p.2))

/-- `ontology_utils.PREDICATE_ALIAS_MAP`, materialised;
`PREDICATE_ALIAS_MAP_builds` proves it equal to the faithful dict
construction. -/
def PREDICATE_ALIAS_MAP : List (String × String) := [
  ("contratto", "Contratto"),
  ("contratto valido", "Contratto"),
  ("contratto esistente", "Contratto"),
  ("haobbligo", "HaObbligo"),
  ("ha obbligo", "HaObbligo"),
  ("obbligo contrattuale", "HaObbligo"),
  ("rapporto obbligatorio", "HaObbligo"),
  ("contrattovalido", "ContrattoValido"),
  ("validità contratto", "ContrattoValido"),
  ("requisiti contratto", "ContrattoValido"),
  ("consenso", "Consenso"),
  ("accordo di volontà", "Consenso"),
  ("capacitacontrattuale", "CapacitaContrattuale"),
  ("capacità di agire", "CapacitaContrattuale"),
  ("causalegittima", "CausaLegittima"),
  ("causa lecita", "CausaLegittima"),
  ("oggettodeterminato", "OggettoDeterminato"),
  ("oggetto determinato", "OggettoDeterminato"),
  ("formaprescritta", "FormaPrescritta"),
  ("forma richiesta", "FormaPrescritta"),
  ("inadempimento", "Inadempimento"),
  ("violazione contratto", "Inadempimento"),
  ("mancato adempimento", "Inadempimento"),
  ("adempimento", "Adempimento"),
  ("esecuzione prestazione", "Adempimento"),
  ("mora", "Mora"),
  ("mora debendi", "Mora"),
  ("doverediligenza", "DovereDiligenza"),
  ("standard professionale", "DovereDiligenza"),
  ("comportamentodiligente", "ComportamentoDiligente"),
  ("condotta diligente", "ComportamentoDiligente"),
  ("colpa", "Colpa"),
  ("negligenza", "Colpa"),
  ("imputabilita", "Imputabilita"),
  ("colpa del debitore", "Imputabilita"),
  ("responsabilecolpa", "ResponsabileColpa"),
  ("responsabilità per colpa", "ResponsabileColpa"),
  ("responsabilitacontrattuale", "ResponsabilitaContrattuale"),
  ("responsabilità per inadempimento", "ResponsabilitaContrattuale"),
  ("responsabilitacivilecolpa", "ResponsabilitaCivileColpa"),
  ("responsabilità aquiliana", "RisarcimentoIllecito"),
  ("responsabilitamedicacontrattuale", "ResponsabilitaMedicaContrattuale"),
  ("responsabilità medica", "ResponsabilitaMedicaContrattuale"),
  ("dannopatrimoniale", "DannoPatrimoniale"),
  ("perdita economica", "DannoPatrimoniale"),
  ("nessocausale", "NessoCausale"),
  ("collegamento causale", "NessoCausale"),
  ("risarcimento", "Risarcimento"),
  ("risarcimento del danno", "Risarcimento"),
  ("indennizzo", "Risarcimento"),
  ("risarcimentoillecito", "RisarcimentoIllecito"),
  ("difettoconformita", "DifettoConformita"),
  ("difetto di conformità", "DifettoConformita"),
  ("dirittosceltaremedy", "DirittoSceltaRemedy"),
  ("diritti garanzia legale", "DirittoSceltaRemedy"),
  ("contrattoadesione", "ContrattoAdesione"),
  ("contratto di adesione", "ContrattoAdesione"),
  ("predeterminatoda", "PredeterminatoDa"),
  ("predisposto da", "PredeterminatoDa"),
  ("nonnegoziabileda", "NonNegoziabileDa"),
  ("non negoziabile", "NonNegoziabileDa"),
  ("puosoloaccettareoppurerifiutare", "PuoSoloAccettareOppureRifiutare"),
  ("take it or leave it", "PuoSoloAccettareOppureRifiutare"),
  ("trascrizioneopponibileaterzi", "TrascrizioneOpponibileATerzi"),
  ("opponibilità trascrizione", "TrascrizioneOpponibileATerzi"),
  ("possessocontinuato", "PossessoContinuato"),
  ("possesso continuativo", "PossessoContinuato"),
  ("possessopubblico", "PossessoPubblico"),
  ("possesso pacifico", "PossessoPubblico"),
  ("animusdomini", "AnimusDomini"),
  ("animo del proprietario", "AnimusDomini"),
  ("animus domini", "AnimusDomini"),
  ("duratapossesso", "DurataPossesso"),
  ("durata possesso", "DurataPossesso"),
  ("duratapossesso20anni", "DurataPossesso"),
  ("buonafede", "BuonaFede"),
  ("buona fede", "BuonaFede"),
  ("titoloidoneo", "TitoloIdoneo"),
  ("titolo valido", "TitoloIdoneo"),
  ("usucapioneordinaria", "UsucapioneOrdinaria"),
  ("usucapione ventennale", "UsucapioneOrdinaria"),
  ("usucapioneabbreviata", "UsucapioneAbbreviata"),
  ("usucapione biennale", "UsucapioneAbbreviata"),
  ("perditabene", "PerditaBene"),
  ("perdita della merce", "PerditaBene"),
  ("perdita bene", "PerditaBene"),
  ("avariabene", "AvariaBene"),
  ("danneggiamento bene", "AvariaBene"),
  ("avaria della merce", "AvariaBene"),
  ("perditaavaria", "PerditaAvaria"),
  ("perdita o avaria", "PerditaAvaria"),
  ("perditavaria", "PerditaAvaria"),
  ("contrattotrasporto", "ContrattoTrasporto"),
  ("contratto di trasporto", "ContrattoTrasporto"),
  ("eventoinadempimento", "EventoInadempimento"),
  ("evento inadempimento", "EventoInadempimento"),
  ("causanonimputabile", "CausaNonImputabile"),
  ("caso fortuito", "CausaNonImputabile"),
  ("causa non imputabile", "CausaNonImputabile"),
  ("rivendicazioneproprietario", "RivendicazioneProprietario"),
  ("rivendicazione del proprietario", "RivendicazioneProprietario"),
  ("iscrizioneregistro", "IscrizioneRegistro"),
  ("iscrizione registro pubblico", "IscrizioneRegistro"),
  ("iscrizione pra", "IscrizioneRegistro"),
  ("nonrivendicato", "NonRivendicato"),
  ("nessuna rivendicazione", "NonRivendicato"),
  ("nessuna_rivendicazione", "NonRivendicato"),
  ("nessunarivendicazione", "NonRivendicato"),
  ("riciclaggio", "Riciclaggio"),
  ("lavaggio di denaro", "Riciclaggio"),
  ("contraffazionemarchio", "ContraffazioneMarchio"),
  ("contraffazione marchio", "ContraffazioneMarchio"),
  ("misuracautelarepersonale", "MisuraCautelarePersonale"),
  ("misura personale", "MisuraCautelarePersonale"),
  ("misuracautelarereale", "MisuraCautelareReale"),
  ("misura reale", "MisuraCautelareReale"),
  ("multa", "Multa"),
  ("pena pecuniaria delitto", "Multa"),
  ("ammenda", "Ammenda"),
  ("pena pecuniaria contravvenzione", "Ammenda"),
  ("trasportoresponsabilitavettore", "TrasportoResponsabilitaVettore"),
  ("responsabilità vettore", "TrasportoResponsabilitaVettore"),
  ("sospensioneesecuzioneforzata", "SospensioneEsecuzioneForzata"),
  ("sospensione esecuzione", "SospensioneEsecuzioneForzata"),
  ("responsabilita_contrattuale", "ResponsabilitaContrattuale"),
  ("mora del debitore", "Mora"),
  ("ogggettononillecito", "OggettoDeterminato"),
  ("oggettononillecito", "OggettoDeterminato"),
  ("ognettodeterminato", "OggettoDeterminato"),
  ("causanonillecita", "CausaLegittima"),
  ("possessopacifico", "PossessoPubblico"),
  ("duratapossessoventianni", "DurataPossesso"),
  ("duratapossessoalmeno20anni", "DurataPossesso"),
  ("duratapossessoalmeno2anni", "DurataPossesso"),
  ("duratapossessominore2anni", "DurataPossesso"),
  ("duratapossessominoredueanni", "DurataPossesso"),
  ("rivendicazione", "RivendicazioneProprietario")]

/-- `ontology_utils.resolve_predicate_alias`. -/
def resolve_predicate_alias (name : Option String) : String :=
  match name with
  | none => ""
  | some raw =>
    if raw = "" then ""
    else
      let key := pyStrip raw
      match PREDICATE_ALIAS_MAP.lookup (pyLower key) with
      | some canonical => canonical
      | none => key

/-- `ontology_utils.get_predicate_signature`. -/
def get_predicate_signature (name : String) : Option (Nat × List String) :=
  let canonical := resolve_predicate_alias (some name)
  match predicatesGet canonical with
  | some spec => some (spec.args.length, spec.args)
  | none => none

set_option maxRecDepth 100000 in
/-- The materialised sort alias map is the dict built as in
`_build_sort_alias_map`. -/
theorem SORT_ALIAS_MAP_builds : SORT_ALIAS_MAP = buildDict sortAliasEntries := by decide

set_option maxRecDepth 100000 in
/-- The materialised predicate alias map is the dict built as in
`_build_predicate_alias_map`. -/
theorem PREDICATE_ALIAS_MAP_builds :
    PREDICATE_ALIAS_MAP = buildDict predicateAliasEntries := by decide

/-! ## Data model (`app/models.py`) -/

/-- One entry of `LogicProgram.rules` after sanitisation: a dict with
`condition`, `conclusion` and an optional `id`. -/
structure RuleR where
  condition : String
  conclusion : String
  ruleId : Option String := none
deriving DecidableEq, Repr

/-- One entry of `LogicProgram.axioms` after sanitisation: `{"formula": f}`. -/
structure AxiomR where
  formula : String
deriving DecidableEq, Repr

/-- A `LogicProgram.constants` value: `{"sort": s}` (`none` models a missing
or `None` entry). -/
structure ConstMeta where
  sort : Option String
deriving DecidableEq, Repr

/-- A `LogicProgram.predicates` value: `{"arity": n, "sorts": [...]}`.
`arity = none` models an absent `"arity"` key; an absent or `None`
`"sorts"` key behaves exactly like `[]` at every use site and is modelled
as `[]`. -/
structure PredMeta where
  arity : Option Nat
  sorts : List String
deriving DecidableEq, Repr

/-- A `LogicProgram.sorts` value: `{"type": t}` (`none` models an absent
`"type"` key). -/
structure SortMeta where
  type : Option String
deriving DecidableEq, Repr

/-- `models.LogicProgram`, after the pipeline sanitiser has run (axioms and
rules are dicts of the shapes above and a dict-shaped query has been folded
into a string, which is what `pipeline_v2._sanitize_logic_program`
guarantees before any claim-relevant code runs).  Python dicts are
insertion-ordered association lists. -/
structure LogicProgram where
  dsl_version : String := "1.0"
  sorts : List (String × SortMeta) := []
  constants : List (String × ConstMeta) := []
  predicates : List (String × PredMeta) := []
  facts : List (String × Bool) := []
  axioms : List AxiomR := []
  rules : List RuleR := []
  query : Option String := none
deriving DecidableEq, Repr

/-! ## Feedback engine (`app/logic_feedback.py`)

The Z3 `Solver` is abstracted as an oracle: the result of the pending
`check()`, an entailment oracle (`entails n` holds iff
`check(assertions ∧ ¬Bool(n))` is UNSAT, the exact question
`_solver_entails` asks), the list of asserted formulas (only its length is
ever read) and the unsat core that Z3 would report (which
`build_logic_feedback` never reads). -/

/-- Z3 check result. -/
inductive CheckResult | sat | unsat | unknown
deriving DecidableEq, Repr

/-- Abstract Z3 solver state (see section comment). -/
structure SolverState where
  checkResult : CheckResult
  entails : String → Bool
  assertions : List String
  unsatCore : List String

/-- `logic_feedback.LogicFeedback`. -/
structure LogicFeedback where
  status : String
  conflicting_axioms : List String
  missing_links : List String
  human_summary : String
deriving DecidableEq, Repr

/-- `logic_feedback.LOGICAL_KEYWORDS`. -/
def LOGICAL_KEYWORDS : List String := ["and", "or", "not", "implies", "true", "false"]

set_option linter.unusedVariables false in
/-- First pass of `_extract_predicate_names_from_text`: every regex match of
`([A-Za-z_][A-Za-z0-9_]*)\s*\(` in scan order (`re.finditer` semantics:
try each start position left to right, resume after a match). -/
def findPredTokensL : List Char → List String
  | [] => []
  | c :: rest =>
    if isIdentStart c then
      let ident := c :: rest.takeWhile isIdentChar
      let after := (rest.dropWhile isIdentChar).dropWhile pyWS
      match h : after with
      | '(' :: rest2 => (⟨ident⟩ : String) :: findPredTokensL rest2
      | _ => findPredTokensL rest
    else findPredTokensL rest
termination_by l => l.length
decreasing_by
  · simp only [List.length_cons]
    have h1 : after.length ≤ rest.length := by
      calc after.length ≤ (rest.dropWhile isIdentChar).length :=
            (List.dropWhile_sublist pyWS).length_le
        _ ≤ rest.length := (List.dropWhile_sublist isIdentChar).length_le
    have h2 : rest2.length < after.length := by simp [h]
    omega
  · simp
  · simp

/-- Regex `\band\b|\bAND\b` match test at the current position (`prevIsWord`
says whether the previous character was a word character, i.e. whether
there is no boundary before the current position). -/
def matchAndAt (prevIsWord : Bool) (l : List Char) : Bool :=
  !prevIsWord &&
    (("and".data.isPrefixOf l) || ("AND".data.isPrefixOf l)) &&
    (match l.drop 3 with
     | [] => true
     | d :: _ => !isIdentChar d)

/-- `re.split(r"\band\b|\bAND\b", raw)`: pieces between word-bounded
`and`/`AND` matches. -/
def splitWordAndL (prevIsWord : Bool) (l : List Char) : List (List Char) :=
  match l with
  | [] => [[]]
  | c :: rest =>
    if matchAndAt prevIsWord (c :: rest) then
      [] :: splitWordAndL true ((c :: rest).drop 3)
    else
      match splitWordAndL (isIdentChar c) rest with
      | [] => [[c]]
      | piece :: more => (c :: piece) :: more
termination_by l.length
decreasing_by
  · simp [List.length_drop]; omega
  · simp

/-- Fallback pass of `_extract_predicate_names_from_text` (legacy DSL v1):
split on word-bounded `and`, strip wrappers and leading `not `, and take
the leading identifier of each piece. -/
def fallbackAtoms (raw : String) : List String :=
  (splitWordAndL false raw.data).filterMap fun piece =>
    let t := pyStrip ⟨piece⟩
    if t = "" then none
    else
      let t := if pyStartsWith t "(" && pyEndsWith t ")" then pyStrip (pyDropLast (pyDrop t 1)) else t
      let t := if pyStartsWith (pyLower t) "not " then pyStrip (pyDrop t 4) else t
      match t.data with
      | [] => none
      | c :: rest => if isIdentStart c then some ⟨c :: rest.takeWhile isIdentChar⟩ else none

/-- `logic_feedback._extract_predicate_names_from_text`. -/
def extract_predicate_names_from_text (text : String) : List String :=
  if pyStrip text = "" then []
  else
    let raw := pyStrip text
    let firstPass :=
      dedupFirstSeen ((findPredTokensL raw.data).filter fun a => !(pyLower a ∈ LOGICAL_KEYWORDS))
    if firstPass ≠ [] then firstPass
    else dedupFirstSeen ((fallbackAtoms raw).filter fun a => !(pyLower a ∈ LOGICAL_KEYWORDS))

/-- Piece of `s` before the first `sep` (`s.split(sep, 1)[0]`). -/
def splitHead (s : String) (sep : Char) : String :=
  match pySplitOnce s sep with
  | some (l, _) => l
  | none => s

/-- `logic_feedback._normalize_atom_text` (`none` models a non-`str`
argument). -/
def normalize_atom_text (text : Option String) : String :=
  match text with
  | none => ""
  | some t =>
    let atom := pyStrip t
    if atom = "" then ""
    else
      let atom := if pyStartsWith (pyLower atom) "not " then pyStrip (pyDrop atom 4) else atom
      if !pyContains atom "(" || !pyEndsWith atom ")" then atom
      else
        match pySplitOnce atom '(' with
        | none => atom
        | some (name0, argsStr) =>
          let name := pyStrip name0
          let argsBody := pyDropLast argsStr
          let args := (pySplitAll argsBody ',').filterMap fun a =>
            let s := pyStrip a
            if s = "" then none else some s
          let joined := pyJoin "," args
          if joined = "" then name else name ++ "(" ++ joined ++ ")"

/-- `logic_feedback._extract_query_name`.  The `query` argument models the
string rendering of the Z3 query term when one was passed; the dict branch
of the Python code is dead after `_sanitize_logic_program` has folded dict
queries into strings.  The empty string plays the role of Python's falsy
`None`/`""`, exactly as every caller tests `if not q_name`. -/
def extract_query_name (query : Option String) (lp : LogicProgram) : String :=
  match query with
  | some q => normalize_atom_text (some q)
  | none =>
    match lp.query with
    | some s => normalize_atom_text (some s)
    | none => ""

/-- `logic_feedback._rules_concluding`. -/
def rules_concluding (lp : LogicProgram) (conclusionName : String) : List RuleR :=
  let normalizedTarget := normalize_atom_text (some conclusionName)
  let targetPred := if normalizedTarget = "" then "" else splitHead normalizedTarget '('
  lp.rules.filter fun r =>
    let concl := normalize_atom_text (some r.conclusion)
    let conclPred := if concl = "" then "" else splitHead concl '('
    concl = normalizedTarget || (targetPred ≠ "" && conclPred = targetPred)

/-- The body of the final dedup loop of
`_compute_missing_links_for_query` (`tnorm` and `tpred` are the
loop-invariant normalized target atom and target predicate). -/
def c2_step (tnorm tpred : String) (state : List String × List String) (m : String) :
    List String × List String :=
  let (seen, acc) := state
  let normalized := normalize_atom_text (some m)
  if normalized = tnorm then state
  else if tpred ≠ "" && splitHead normalized '(' = tpred then state
  else
    let key := if normalized = "" then m else normalized
    if key ∈ seen then state else (key :: seen, acc ++ [key])

/-- `logic_feedback._compute_missing_links_for_query` (also exposed as
`_compute_missing_links`); `entails` is the solver oracle. -/
def compute_missing_links_for_query (entails : String → Bool) (lp : LogicProgram)
    (qName : String) : List String :=
  let targetAtom := let n := normalize_atom_text lp.query; if n = "" then qName else n
  let targetPred := splitHead (normalize_atom_text (some targetAtom)) '('
  let conclRules := rules_concluding lp targetAtom
  if conclRules = [] then
    let normalized := normalize_atom_text (some targetAtom)
    let predicateOnly := if normalized = "" then normalized else splitHead normalized '('
    [if predicateOnly = "" then qName else predicateOnly]
  else
    let missing := conclRules.flatMap fun r =>
      let cond := pyStrip r.condition
      if cond = "" then []
      else (extract_predicate_names_from_text cond).filter fun a => !entails a
    let final := missing.foldl (c2_step (normalize_atom_text (some targetAtom)) targetPred)
      (([] : List String), ([] : List String))
    final.2

/-- `logic_feedback.build_logic_feedback`; the `query` argument is the
string rendering of the optional Z3 query term (see
`extract_query_name`). -/
def build_logic_feedback (st : SolverState) (lp : LogicProgram)
    (query : Option String) : LogicFeedback :=
  match st.checkResult with
  | .unsat =>
    let conflicting := (List.range st.assertions.length).map fun i => "assertion_" ++ toString i
    let conflicting :=
      if conflicting = [] then (List.range lp.rules.length).map fun i => "rule_" ++ toString i
      else conflicting
    let conflicting := if conflicting = [] then ["conflict_0"] else conflicting
    ⟨"inconsistent", conflicting, [], "Sono presenti assiomi contraddittori."⟩
  | _ =>
    let qName := extract_query_name query lp
    if qName = "" then
      ⟨"consistent_no_entailment", [], [],
        "Il sistema è coerente ma non è stata richiesta alcuna conclusione."⟩
    else if st.entails qName then
      ⟨"consistent_entails", [], [], "Il sistema è coerente e implica la conclusione."⟩
    else
      ⟨"consistent_no_entailment", [], compute_missing_links_for_query st.entails lp qName,
        "Il sistema è coerente ma la conclusione non è dimostrabile."⟩

/-! ## Canonical rule injection (`app/canonical_rule_utils.py`)

`ensure_canonical_query_rule` runs only after
`pipeline_v2._sanitize_logic_program` has folded dict queries into strings,
so the dict branch of `_extract_query_atom` is dead and the query is
modelled as `Option String`. -/

/-- `canonical_rule_utils._extract_query_atom` (string branch):
`(raw text, predicate name, argument list)`. -/
def extract_query_atom (query : Option String) : Option (String × String × List String) :=
  match query with
  | none => none
  | some q =>
    let text := pyStrip q
    if text = "" then none
    else if !pyContains text "(" || !pyEndsWith text ")" then some (text, text, [])
    else
      match pySplitOnce text '(' with
      | none => some (text, text, [])
      | some (name0, argsStr) =>
        let name := pyStrip name0
        let argsBody := pyDropLast argsStr
        let args := (pySplitAll argsBody ',').filterMap fun a =>
          let s := pyStrip a
          if s = "" then none else some s
        some (text, name, args)

/-- `canonical_rule_utils._has_rule_for_query`. -/
def has_rule_for_query (rules : List RuleR) (targetConclusion : String) : Bool :=
  rules.any fun r => pyStrip r.conclusion = targetConclusion

/-- `canonical_rule_utils._build_conclusion`. -/
def build_conclusion (predicate : String) (args : List String) : String :=
  if args ≠ [] then predicate ++ "(" ++ pyJoin ", " args ++ ")"
  else predicate ++ "()"

/-- `canonical_rule_utils._resolve_sort` (strip; `none` for falsy input). -/
def cru_resolve_sort (sortName : Option String) : Option String :=
  match sortName with
  | none => none
  | some v =>
    if v = "" then none
    else
      let key := pyStrip v
      if key = "" then none else some key

/-- The fresh-name search of `canonical_rule_utils._ensure_constant`:
candidate `base`, then `base_2`, `base_3`, ... until unused.  The fuel
`constants.length + 1` always suffices because the candidates are pairwise
distinct, so the fuel-exhausted branch is unreachable. -/
def freshConstName (constants : List (String × ConstMeta)) (baseName : String) : String :=
  go (constants.length + 1) baseName 1
where
  go : Nat → String → Nat → String
    | 0, candidate, _ => candidate
    | n + 1, candidate, idx =>
      if constants.any (fun c => c.1 = candidate) then
        go n (baseName ++ "_" ++ toString (idx + 1)) (idx + 1)
      else candidate

/-- `canonical_rule_utils._ensure_constant`: reuse the first constant of the
requested sort, otherwise mint a fresh name, record it with the sort, and
make sure the sort is defined. -/
def cru_ensure_constant (p : LogicProgram) (baseName sortName : String) :
    LogicProgram × String :=
  match p.constants.find? (fun c => cru_resolve_sort c.2.sort = some sortName) with
  | some c => (p, c.1)
  | none =>
    let candidate := freshConstName p.constants baseName
    let p1 := { p with constants := p.constants ++ [(candidate, ⟨some sortName⟩)] }
    (ensure_sort_definition p1 sortName, candidate)
where
  /-- `canonical_rule_utils._ensure_sort_definition`. -/
  ensure_sort_definition (p : LogicProgram) (sortName : String) : LogicProgram :=
    if p.sorts.any (fun s => s.1 = sortName) then p
    else
      let t :=
        match sortsGet sortName with
        | some spec =>
          match spec.parent with
          | some par => if par = "" then "Entity" else par
          | none => "Entity"
        | none => "Entity"
      { p with sorts := p.sorts ++ [(sortName, ⟨some t⟩)] }

/-- `canonical_rule_utils._build_rule_contratto_valido`. -/
def build_rule_contratto_valido (p : LogicProgram) (args : List String) :
    LogicProgram × Option RuleR :=
  match args with
  | [a0, a1] =>
    let condition :=
      "(and Consenso(" ++ a0 ++ ", " ++ a1 ++ ") " ++
      "CapacitaContrattuale(" ++ a0 ++ ") " ++
      "CausaLegittima(" ++ a1 ++ ") " ++
      "OggettoDeterminato(" ++ a1 ++ ") " ++
      "FormaPrescritta(" ++ a1 ++ "))"
    (p, some ⟨condition, build_conclusion "ContrattoValido" args, none⟩)
  | _ => (p, none)

/-- `canonical_rule_utils._build_rule_responsabilita_contrattuale`. -/
def build_rule_responsabilita_contrattuale (p : LogicProgram) (args : List String) :
    LogicProgram × Option RuleR :=
  match args with
  | [a0, a1, a2] =>
    let condition :=
      "(and HaObbligo(" ++ a0 ++ ", " ++ a1 ++ ", " ++ a2 ++ ") " ++
      "Inadempimento(" ++ a0 ++ ", " ++ a2 ++ ") " ++
      "DannoPatrimoniale(" ++ a1 ++ ") " ++
      "Imputabilita(" ++ a0 ++ ", " ++ a2 ++ "))"
    (p, some ⟨condition, build_conclusion "ResponsabilitaContrattuale" args, none⟩)
  | _ => (p, none)

/-- `canonical_rule_utils._build_rule_contratto_adesione`. -/
def build_rule_contratto_adesione (p : LogicProgram) (args : List String) :
    LogicProgram × Option RuleR :=
  match args with
  | [contratto] =>
    let (p1, professionista) := cru_ensure_constant p (contratto ++ "_professionista") "Professionista"
    let (p2, consumatore) := cru_ensure_constant p1 (contratto ++ "_consumatore") "Consumatore"
    let condition :=
      "(and PredeterminatoDa(" ++ contratto ++ ", " ++ professionista ++ ") " ++
      "NonNegoziabileDa(" ++ contratto ++ ", " ++ consumatore ++ ") " ++
      "PuoSoloAccettareOppureRifiutare(" ++ consumatore ++ ", " ++ contratto ++ "))"
    (p2, some ⟨condition, build_conclusion "ContrattoAdesione" args, none⟩)
  | _ => (p, none)

/-- `canonical_rule_utils._build_rule_usucapione_ordinaria`. -/
def build_rule_usucapione_ordinaria (p : LogicProgram) (args : List String) :
    LogicProgram × Option RuleR :=
  match args with
  | [a0, a1] =>
    let condition :=
      "(and PossessoContinuato(" ++ a0 ++ ", " ++ a1 ++ ") " ++
      "PossessoPubblico(" ++ a0 ++ ", " ++ a1 ++ ") " ++
      "BuonaFede(" ++ a0 ++ "))"
    (p, some ⟨condition, build_conclusion "UsucapioneOrdinaria" args, none⟩)
  | _ => (p, none)

/-- `canonical_rule_utils._build_rule_usucapione_abbreviata`. -/
def build_rule_usucapione_abbreviata (p : LogicProgram) (args : List String) :
    LogicProgram × Option RuleR :=
  match args with
  | [a0, a1] =>
    let (p1, titolo) := cru_ensure_constant p ("titolo_" ++ a1) "Titolo"
    let condition :=
      "(and PossessoContinuato(" ++ a0 ++ ", " ++ a1 ++ ") " ++
      "PossessoPubblico(" ++ a0 ++ ", " ++ a1 ++ ") " ++
      "BuonaFede(" ++ a0 ++ ") " ++
      "TitoloIdoneo(" ++ titolo ++ ", " ++ a1 ++ "))"
    (p1, some ⟨condition, build_conclusion "UsucapioneAbbreviata" args, none⟩)
  | _ => (p, none)

/-- `canonical_rule_utils._CANONICAL_RULE_BUILDERS`
(`dict.get` on the builder table). -/
def canonical_rule_builder (predicate : String) :
    Option (LogicProgram → List String → LogicProgram × Option RuleR) :=
  if predicate = "ContrattoValido" then some build_rule_contratto_valido
  else if predicate = "ResponsabilitaContrattuale" then some build_rule_responsabilita_contrattuale
  else if predicate = "ContrattoAdesione" then some build_rule_contratto_adesione
  else if predicate = "UsucapioneOrdinaria" then some build_rule_usucapione_ordinaria
  else if predicate = "UsucapioneAbbreviata" then some build_rule_usucapione_abbreviata
  else none

/-- `canonical_rule_utils.ensure_canonical_query_rule` (the in-place
mutation is modelled as returning the updated program). -/
def ensure_canonical_query_rule (p : LogicProgram) : LogicProgram :=
  match extract_query_atom p.query with
  | none => p
  | some (rawQuery, predicate, args) =>
    match canonical_rule_builder predicate with
    | none => p
    | some builder =>
      if has_rule_for_query p.rules rawQuery then p
      else
        match builder p args with
        | (p2, none) => p2
        | (p2, some rule) =>
          let conclusion :=
            if rawQuery ≠ "" then rawQuery
            else if rule.conclusion ≠ "" then rule.conclusion
            else build_conclusion predicate args
          { p2 with rules := p2.rules ++ [{ rule with conclusion := conclusion }] }

/-! ## DSL v2.1 parser (`app/translator.py`)

Z3 Boolean terms are embedded as `Term`.  A Z3 constant `Bool(n)` is the
nullary application `Function(n, BoolSort())()`, so both are `predApp n []`.
Z3 term identity is syntactic (name + sorts), and two placeholder constants
built for the same declared predicate carry the same names and sorts, which
`predApp` reflects through its placeholder-name list.  The `quant` and
`comp` constructors stand for the fresh Boolean variables
`Bool(f"{quantifier}_{hash(expr) % 1000}")` and `Bool(f"comp_{hash(expr) % 1000}")`,
keyed by the source text they were derived from.  The parser's mutable
`self.predicates` dict is threaded as an explicit name-to-arity table
(`load_sorts`/`type_mapper` metadata is not carried: it selects Z3 sorts
but cannot change any parse outcome or any guardrail issue). -/

/-- Embedded Z3 Boolean term (see section comment). -/
inductive Term where
  | boolVal (b : Bool)
  | predApp (name : String) (args : List String)
  | notT (t : Term)
  | andT (ts : List Term)
  | orT (ts : List Term)
  | impliesT (a b : Term)
  | quant (quantifier : String) (expr : String)
  | comp (expr : String)

/-- Parser/translator failures: `UnknownPredicateError`, `DSLParseError`,
`InvalidArityError`, and an uncaught Z3 exception (raised e.g. when a
declared predicate of positive arity is called with zero arguments in
`_parse_logical_expression`). -/
inductive PErr where
  | unknownPredicate (msg : String)
  | parseErr (msg : String)
  | invalidArity (msg : String)
  | z3Error (msg : String)

/-- `DSL21Parser` state: the `self.predicates` dict reduced to the data the
parser reads from it (declared name → arity) and the `allow_auto_declare`
flag. -/
structure ParserState where
  predicates : List (String × Nat)
  allowAutoDeclare : Bool

/-- Arity lookup in the parser's predicate table. -/
def ParserState.arityOf (st : ParserState) (name : String) : Option Nat :=
  st.predicates.lookup name

/-- `translator.DSL21Parser._split_top_level`: split into top-level tokens,
respecting nested parentheses; tokens are stripped and empty ones
dropped. -/
def splitTopLevelL : Int → List Char → List Char → List (List Char)
  | _, buf, [] =>
    let token := stripL buf.reverse
    if buf ≠ [] ∧ token ≠ [] then [token] else []
  | depth, buf, c :: rest =>
    if c = '(' then splitTopLevelL (depth + 1) (c :: buf) rest
    else if c = ')' then splitTopLevelL (depth - 1) (c :: buf) rest
    else if pyWS c ∧ depth = 0 then
      let token := stripL buf.reverse
      if buf ≠ [] ∧ token ≠ [] then token :: splitTopLevelL depth [] rest
      else splitTopLevelL depth [] rest
    else splitTopLevelL depth (c :: buf) rest

/-- `_split_top_level` on strings. -/
def split_top_level (s : String) : List String :=
  (splitTopLevelL 0 [] s.data).map (fun l => (⟨l⟩ : String))

/-- `translator.DSL21Parser._split_args`: parenthesis-aware split on
top-level commas, stripping pieces and dropping empty ones. -/
def splitArgsL : Int → List Char → List Char → List (List Char)
  | _, buf, [] =>
    let arg := stripL buf.reverse
    if buf ≠ [] ∧ arg ≠ [] then [arg] else []
  | depth, buf, c :: rest =>
    if c = '(' then splitArgsL (depth + 1) (c :: buf) rest
    else if c = ')' then splitArgsL (depth - 1) (c :: buf) rest
    else if c = ',' ∧ depth = 0 then
      let arg := stripL buf.reverse
      if arg ≠ [] then arg :: splitArgsL depth [] rest
      else splitArgsL depth [] rest
    else splitArgsL depth (c :: buf) rest

/-- `_split_args` on strings (the Python method first strips its input and
returns `[]` when it is empty). -/
def split_args (s : String) : List String :=
  let t := stripL s.data
  if t = [] then [] else (splitArgsL 0 [] t).map (fun l => (⟨l⟩ : String))

/-- Python `s.split(sep)` for a multi-character separator (non-overlapping,
left to right).  Never called with an empty separator. -/
def splitSubL (sep : List Char) (l : List Char) : List (List Char) :=
  match l with
  | [] => [[]]
  | c :: rest =>
    if h1 : sep.isEmpty then [c :: rest]
    else if h2 : sep.isPrefixOf (c :: rest) then
      [] :: splitSubL sep ((c :: rest).drop sep.length)
    else
      match splitSubL sep rest with
      | [] => [[c]]
      | p :: more => (c :: p) :: more
termination_by l.length
decreasing_by
  · have hsep : 0 < sep.length := by
      cases sep with
      | nil => simp [List.isEmpty] at h1
      | cons a t => simp
    simp [List.length_drop]
    omega
  · simp

/-- Python `s.split(sep)` on strings, multi-character separator. -/
def pySplitSub (s sep : String) : List String :=
  (splitSubL sep.data s.data).map (fun l => (⟨l⟩ : String))

/-- `translator.DSL21Parser._auto_declare_predicate`, reduced to its
table effect: the declared arity is the registry arity when the canonical
name has a signature, else the call-site argument count. -/
def auto_declare_predicate (st : ParserState) (name : String) (arity : Nat) :
    ParserState × String × Nat :=
  let canonicalName := resolve_predicate_alias (some name)
  let declaredArity :=
    match get_predicate_signature canonicalName with
    | some (expectedArity, _) => expectedArity
    | none => arity
  ({ st with predicates := dictInsert st.predicates canonicalName declaredArity },
   canonicalName, declaredArity)

/-- `translator.DSL21Parser._parse_function_call`.  For a declared
predicate of arity `n > 0` the provided arguments are discarded and the
predicate is applied to the fixed placeholder constants
`{name}_arg_0 … {name}_arg_{n-1}` (auto-declared predicates use
`{name}_auto_arg_i`). -/
def parse_function_call (st : ParserState) (strict : Bool) (expr : String) :
    Except PErr (Term × ParserState) :=
  let funcPart := pyStrip expr
  if !pyEndsWith funcPart ")" then
    .error (.parseErr ("Invalid function call syntax: " ++ expr))
  else
    let funcBody := pyDropLast funcPart
    match pySplitOnce funcBody '(' with
    | none => .error (.parseErr ("Invalid function call syntax: " ++ expr))
    | some (namePart, argsPart) =>
      let funcName := resolve_predicate_alias (some (pyStrip namePart))
      let argsStr := pyStrip argsPart
      let args := split_args argsStr
      match st.arityOf funcName with
      | some arity =>
        if arity = 0 then .ok (.predApp funcName [], st)
        else
          .ok (.predApp funcName
            ((List.range arity).map fun i => funcName ++ "_arg_" ++ toString i), st)
      | none =>
        if strict then
          if !st.allowAutoDeclare then
            .error (.unknownPredicate ("Unknown predicate: " ++ funcName))
          else
            let (st2, canonicalName, declaredArity) := auto_declare_predicate st funcName args.length
            if declaredArity = 0 then .ok (.predApp canonicalName [], st2)
            else
              .ok (.predApp canonicalName
                ((List.range declaredArity).map fun i =>
                  canonicalName ++ "_auto_arg_" ++ toString i), st2)
        else
          .ok (.predApp funcName [],
            { st with predicates := dictInsert st.predicates funcName 0 })

mutual

/-- `translator.DSL21Parser._parse_expression`.  The recursion is fueled;
every recursive call is on a strictly shorter string, so a fuel of
`expr.length + 1` (used at all call sites) never exhausts and the
fuel-exhausted branch is unreachable. -/
def parse_expression (st : ParserState) (strict : Bool) :
    Nat → String → Except PErr (Term × ParserState)
  | 0, _ => .error (.parseErr "Internal recursion fuel exhausted")
  | fuel + 1, expr0 =>
    let expr := pyStrip expr0
    if expr = "" then .error (.parseErr "Empty expression")
    else
      let lowerExpr := pyLower expr
      if pyStartsWith lowerExpr "not(" ∧ pyEndsWith expr ")" then
        let innerExpr := pyStrip (pyDropLast (pyDrop expr 4))
        if innerExpr = "" then .error (.parseErr "NOT requires exactly one argument")
        else do
          let (t, st1) ← parse_expression st strict fuel innerExpr
          .ok (.notT t, st1)
      else if pyStartsWith lowerExpr "and(" ∧ pyEndsWith expr ")" then
        let innerExpr := pyStrip (pyDropLast (pyDrop expr 4))
        let args := split_top_level innerExpr
        if h : args.length = 1 then parse_expression st strict fuel (args.head (by
          intro hnil; rw [hnil] at h; simp at h))
        else if args.length < 2 then .error (.parseErr "AND requires at least two arguments")
        else do
          let (ts, st1) ← parse_expr_list st strict fuel args
          .ok (.andT ts, st1)
      else if pyStartsWith lowerExpr "or(" ∧ pyEndsWith expr ")" then
        let innerExpr := pyStrip (pyDropLast (pyDrop expr 3))
        let args := split_top_level innerExpr
        if h : args.length = 1 then parse_expression st strict fuel (args.head (by
          intro hnil; rw [hnil] at h; simp at h))
        else if args.length < 2 then .error (.parseErr "OR requires at least two arguments")
        else do
          let (ts, st1) ← parse_expr_list st strict fuel args
          .ok (.orT ts, st1)
      else if pyStartsWith lowerExpr "implies(" ∧ pyEndsWith expr ")" then
        let innerExpr := pyStrip (pyDropLast (pyDrop expr 8))
        let args := split_top_level innerExpr
        match args with
        | [a, b] => do
          let (ta, st1) ← parse_expression st strict fuel a
          let (tb, st2) ← parse_expression st1 strict fuel b
          .ok (.impliesT ta tb, st2)
        | _ => .error (.parseErr "IMPLIES requires exactly two arguments")
      else
        match
          (if pyStartsWith expr "(" ∧ pyEndsWith expr ")" then
            let inner := pyStrip (pyDropLast (pyDrop expr 1))
            if inner = "" then some (.error (.parseErr "Empty parenthesized expression"))
            else
              match split_top_level inner with
              | [] => none
              | head :: args =>
                let headLower := pyLower head
                if headLower = "and" then
                  some (match args with
                  | [a] => parse_expression st strict fuel a
                  | [] => .error (.parseErr "AND requires at least two arguments")
                  | _ => do
                    let (ts, st1) ← parse_expr_list st strict fuel args
                    .ok (.andT ts, st1))
                else if headLower = "or" then
                  some (match args with
                  | [a] => parse_expression st strict fuel a
                  | [] => .error (.parseErr "OR requires at least two arguments")
                  | _ => do
                    let (ts, st1) ← parse_expr_list st strict fuel args
                    .ok (.orT ts, st1))
                else if headLower = "not" then
                  some (match args with
                  | [a] => do
                    let (t, st1) ← parse_expression st strict fuel a
                    .ok (.notT t, st1)
                  | _ => .error (.parseErr "NOT requires exactly one argument"))
                else if headLower = "implies" then
                  some (match args with
                  | [a, b] => do
                    let (ta, st1) ← parse_expression st strict fuel a
                    let (tb, st2) ← parse_expression st1 strict fuel b
                    .ok (.impliesT ta tb, st2)
                  | _ => .error (.parseErr "IMPLIES requires exactly two arguments"))
                else if headLower = "forall" ∨ headLower = "exists" then
                  some (.ok (.quant headLower expr, st))
                else
                  let normalized :=
                    if args ≠ [] then head ++ "(" ++ pyJoin ", " args ++ ")"
                    else head ++ "()"
                  some (parse_function_call st strict normalized)
          else none)
        with
        | some r => r
        | none =>
          if pyStartsWith expr "forall" then .ok (.quant "forall" expr, st)
          else if pyStartsWith expr "exists" then .ok (.quant "exists" expr, st)
          else if pyContains expr "(" ∧ pyEndsWith expr ")" then
            parse_function_call st strict expr
          else parse_logical_expression st strict fuel expr

/-- Sequential parse of a list of sub-expressions, threading the parser
state (the list-comprehension recursions in `_parse_expression`). -/
def parse_expr_list (st : ParserState) (strict : Bool) :
    Nat → List String → Except PErr (List Term × ParserState)
  | _, [] => .ok ([], st)
  | fuel, e :: rest => do
    let (t, st1) ← parse_expression st strict fuel e
    let (ts, st2) ← parse_expr_list st1 strict fuel rest
    .ok (t :: ts, st2)

/-- `translator.DSL21Parser._parse_logical_expression`. -/
def parse_logical_expression (st : ParserState) (strict : Bool) :
    Nat → String → Except PErr (Term × ParserState)
  | 0, _ => .error (.parseErr "Internal recursion fuel exhausted")
  | fuel + 1, expr =>
    if pyStartsWith expr "not " then do
      let (t, st1) ← parse_expression st strict fuel (pyStrip (pyDrop expr 4))
      .ok (.notT t, st1)
    else if pyContains expr " and " ∧ ((pySplitSub expr " and ").map pyStrip).length ≥ 2 then do
      let (ts, st1) ← parse_expr_list st strict fuel ((pySplitSub expr " and ").map pyStrip)
      .ok (.andT ts, st1)
    else if pyContains expr " or " ∧ ((pySplitSub expr " or ").map pyStrip).length ≥ 2 then do
      let (ts, st1) ← parse_expr_list st strict fuel ((pySplitSub expr " or ").map pyStrip)
      .ok (.orT ts, st1)
    else if pyContains expr " implies " ∧
        ((pySplitSub expr " implies ").map pyStrip).length = 2 then
      match ((pySplitSub expr " implies ").map pyStrip) with
      | [a, b] => do
        let (ta, st1) ← parse_expression st strict fuel a
        let (tb, st2) ← parse_expression st1 strict fuel b
        .ok (.impliesT ta tb, st2)
      | _ => .error (.parseErr "unreachable")
    else if pyContains expr ">" ∨ pyContains expr "<" ∨ pyContains expr ">=" ∨
        pyContains expr "<=" ∨ pyContains expr "==" ∨ pyContains expr "!=" then
      .ok (.comp expr, st)
    else if pyLower expr = "true" then .ok (.boolVal true, st)
    else if pyLower expr = "false" then .ok (.boolVal false, st)
    else
      let canonicalExpr := resolve_predicate_alias (some expr)
      match st.arityOf canonicalExpr with
      | some arity =>
        if arity = 0 then .ok (.predApp canonicalExpr [], st)
        else
          .error (.z3Error
            ("declared predicate " ++ canonicalExpr ++ " of positive arity called with no arguments"))
      | none =>
        if strict then .error (.unknownPredicate ("Unknown predicate: " ++ expr))
        else .ok (.predApp expr [], st)

end

/-- `translator.DSL21Parser.parse_rules` in the post-sanitiser data model:
every entry is a dict with `condition` and `conclusion` (the `definition`
branch is dead there).  Both sides are parsed with `strict=True` and the
implication is asserted. -/
def parse_rules (st : ParserState) : List RuleR → Except PErr (List Term × ParserState)
  | [] => .ok ([], st)
  | r :: rest => do
    let conditionExpr := pyStrip r.condition
    let conclusionExpr := pyStrip r.conclusion
    let (c, st1) ← parse_expression st true (conditionExpr.data.length + 1) conditionExpr
    let (d, st2) ← parse_expression st1 true (conclusionExpr.data.length + 1) conclusionExpr
    let (ts, st3) ← parse_rules st2 rest
    .ok (.impliesT c d :: ts, st3)

/-- `translator.DSL21Parser.parse_predicates` in the post-normaliser data
model (every value is a dict).  Declarations are processed in order and an
`InvalidArityError` aborts the loop, keeping the declarations already made
(the second component carries the error message, `none` on success). -/
def parse_predicates (st : ParserState) :
    List (String × PredMeta) → ParserState × Option String
  | [] => (st, none)
  | (predName, meta) :: rest =>
    let canonicalName := resolve_predicate_alias (some predName)
    let arity0 := meta.arity.getD 0
    let arityDeclared := meta.arity.isSome
    let sortsDeclared := meta.sorts ≠ []
    let (arity, sorts) :=
      match get_predicate_signature canonicalName with
      | some (expectedArity, expectedSorts) =>
        ((if !arityDeclared then expectedArity else arity0),
         (if !sortsDeclared ∧ !arityDeclared ∧ expectedSorts.length = expectedArity then
            expectedSorts else meta.sorts))
      | none => (arity0, meta.sorts)
    if sorts.length ≠ arity then
      (st, some ("Predicate \x27" ++ canonicalName ++ "\x27 arity " ++ toString arity ++
        " doesn\x27t match sorts length " ++ toString sorts.length))
    else
      parse_predicates { st with predicates := dictInsert st.predicates canonicalName arity } rest

/-! ## Guardrail checker (`app/guardrail_checker.py`) -/

/-- `logic_dsl.DSL_VERSION`. -/
def DSL_VERSION : String := "2.1"

/-- `models_v2.GuardrailIssue` (the free-form `details` dict is read by no
claim-relevant code and is omitted). -/
structure GuardrailIssue where
  code : String
  message : String
deriving DecidableEq, Repr

/-- `models_v2.GuardrailResult`. -/
structure GuardrailResult where
  ok : Bool
  issues : List GuardrailIssue
deriving DecidableEq, Repr

/-- `guardrail_checker.run_guardrail`.  `load_sorts` only feeds the Z3 type
mapper, which can change no issue and raise nothing, so it has no
counterpart here.  An `Except.error` result models a Python exception
escaping `run_guardrail` (only possible from a Z3 error while parsing
rules or query). -/
def run_guardrail (lp : LogicProgram) : Except PErr GuardrailResult := do
  let versionIssues : List GuardrailIssue :=
    if lp.dsl_version ≠ DSL_VERSION then
      [⟨"DSL_VERSION_MISMATCH",
        "dsl_version \x27" ++ lp.dsl_version ++ "\x27 is not supported. Expected \x27" ++
          DSL_VERSION ++ "\x27."⟩]
    else []
  let sortIssues : List GuardrailIssue := lp.sorts.filterMap fun s =>
    let canonicalName := resolve_sort_alias (some s.1)
    if !inSORTS canonicalName then
      some ⟨"UNKNOWN_SORT_DECLARATION",
        "Sort \x27" ++ s.1 ++ "\x27 is not part of the canonical DSL."⟩
    else none
  let constIssues : List GuardrailIssue := lp.constants.filterMap fun c =>
    match c.2.sort with
    | none => none
    | some sortName =>
      if sortName = "" then none
      else if !inSORTS (resolve_sort_alias (some sortName)) then
        some ⟨"UNKNOWN_CONSTANT_SORT",
          "Constant \x27" ++ c.1 ++ "\x27 references unknown sort \x27" ++ sortName ++ "\x27."⟩
      else none
  let (predIssues, canonicalPredicates) :=
    lp.predicates.foldl (fun (acc : List GuardrailIssue × List (String × PredMeta)) p =>
      let (issues, canonPreds) := acc
      let canonicalName := resolve_predicate_alias (some p.1)
      match predicatesGet canonicalName with
      | none =>
        (issues ++ [⟨"UNKNOWN_PREDICATE_DECLARATION",
          "Predicate \x27" ++ p.1 ++ "\x27 is not part of the canonical DSL."⟩], canonPreds)
      | some spec =>
        let expectedArity := spec.args.length
        let actualArity0 := p.2.arity.getD expectedArity
        let (arityIssues, actualArity) :=
          if expectedArity ≠ actualArity0 then
            ([(⟨"PREDICATE_ARITY_MISMATCH",
              "Predicate \x27" ++ canonicalName ++ "\x27 arity mismatch (expected " ++
                toString expectedArity ++ ", got " ++ toString actualArity0 ++ ")."⟩ :
                GuardrailIssue)],
             expectedArity)
          else ([], actualArity0)
        let sorts := if p.2.sorts ≠ [] then p.2.sorts else spec.args
        let canonicalSortsMeta := sorts.map fun sn => resolve_sort_alias (some sn)
        let predSortIssues : List GuardrailIssue := sorts.filterMap fun sn =>
          if !inSORTS (resolve_sort_alias (some sn)) then
            some ⟨"PREDICATE_SORT_UNKNOWN",
              "Predicate \x27" ++ canonicalName ++ "\x27 references unknown sort \x27" ++
                sn ++ "\x27."⟩
          else none
        let canonicalSortsMeta :=
          if canonicalSortsMeta.length ≠ actualArity then
            match get_predicate_signature canonicalName with
            | some (_, sig) => sig
            | none => canonicalSortsMeta.take actualArity
          else canonicalSortsMeta
        (issues ++ arityIssues ++ predSortIssues,
         dictInsert canonPreds canonicalName ⟨some actualArity, canonicalSortsMeta⟩))
      ([], [])
  let (parserState, arityErr) := parse_predicates ⟨[], false⟩ canonicalPredicates
  let invalidArityIssues : List GuardrailIssue :=
    match arityErr with
    | some msg => [⟨"INVALID_ARITY", msg⟩]
    | none => []
  let ruleIssues ←
    match parse_rules parserState lp.rules with
    | .ok _ => pure ([] : List GuardrailIssue)
    | .error (.unknownPredicate msg) => pure [⟨"RULE_UNKNOWN_PREDICATE", msg⟩]
    | .error (.parseErr msg) => pure [⟨"RULE_PARSE_ERROR", msg⟩]
    | .error e => .error e
  let queryIssues ←
    match lp.query with
    | none => pure ([] : List GuardrailIssue)
    | some q =>
      if q = "" then pure []
      else
        match parse_expression parserState true (q.data.length + 1) q with
        | .ok _ => pure []
        | .error (.unknownPredicate msg) => pure [⟨"QUERY_PARSE_ERROR", msg⟩]
        | .error (.parseErr msg) => pure [⟨"QUERY_PARSE_ERROR", msg⟩]
        | .error e => .error e
  let issues := versionIssues ++ sortIssues ++ constIssues ++ predIssues ++
    invalidArityIssues ++ ruleIssues ++ queryIssues
  .ok ⟨issues = [], issues⟩

/-! ## Explanation synthesis (`app/explanation_synthesizer.py`) -/

/-- `models_v2.ExplanationOutput` (the free-form `details` dict carries no
claim-relevant data and is omitted). -/
structure ExplanationOutput where
  summary : String
  status : String
deriving DecidableEq, Repr

/-- `explanation_synthesizer.synthesize_explanation`. -/
def synthesize_explanation (finalAnswer : String) (feedback : LogicFeedback)
    (guardrail : GuardrailResult) : ExplanationOutput :=
  if !guardrail.ok then
    ⟨"Il programma logico generato non ha superato i controlli di sicurezza. " ++
      "È stata mantenuta la risposta precedente oppure è richiesto un nuovo refinement.",
     "guardrail_failed"⟩
  else if feedback.status = "consistent_entails" then
    ⟨"Il sistema simbolico è coerente e la conclusione proposta è dimostrata " ++
      "dalle regole modellate. Risposta finale: " ++ finalAnswer, feedback.status⟩
  else if feedback.status = "consistent_no_entailment" then
    ⟨"Il programma logico è coerente ma non implica ancora la conclusione. " ++
      "Mancano collegamenti o premesse aggiuntive. Feedback sintetico: " ++
      feedback.human_summary, feedback.status⟩
  else
    ⟨"Il solver ha rilevato un conflitto logico nelle regole generate. " ++
      "È necessario correggere le premesse: " ++ feedback.human_summary, feedback.status⟩

/-! ## Pipeline orchestrator (`app/pipeline_v2.py`)

`build_solver` is abstracted as an oracle
`solverOf : LogicProgram → SolverState × Option String` giving the solver
state and the string rendering of the parsed query term; feedback is then
computed by the embedded `build_logic_feedback`. -/

/-- `NSLAPipelineV2.FACT_SYNTHESIS_MAX_ROUNDS`. -/
def FACT_SYNTHESIS_MAX_ROUNDS : Nat := 3

/-- The fresh-name search of `_ensure_constant_for_sort`: `base_(pos+1)`,
then bump the numeric suffix until unused.  Fuel `constants.length + 1`
always suffices (candidates are pairwise distinct). -/
def freshSortConstName (constants : List (String × ConstMeta)) (base : String)
    (position : Nat) : String :=
  go (constants.length + 1) (position + 1)
where
  go : Nat → Nat → String
    | 0, suffix => base ++ "_" ++ toString suffix
    | n + 1, suffix =>
      let candidate := base ++ "_" ++ toString suffix
      if constants.any (fun c => c.1 = candidate) then go n (suffix + 1) else candidate

/-- `NSLAPipelineV2._ensure_constant_for_sort`.  `resolve_sort_alias` never
returns an empty string, so its Python `or (sort_name or "Entity")`
fallback is dead. -/
def ensure_constant_for_sort (p : LogicProgram) (sortName : Option String)
    (position : Nat) : LogicProgram × String :=
  let targetSort := resolve_sort_alias sortName
  match p.constants.find? (fun c => c.2.sort = some targetSort) with
  | some c => (p, c.1)
  | none =>
    let candidate := freshSortConstName p.constants (pyLower targetSort) position
    ({ p with constants := p.constants ++ [(candidate, ⟨some targetSort⟩)] }, candidate)

/-- The canonical name `_synthesize_missing_facts` derives for a missing
link (`resolve_predicate_alias(raw_name) or raw_name`). -/
def c6_canonical (raw : String) : String :=
  let r := resolve_predicate_alias (some raw)
  if r = "" then raw else r

/-- The asserted formula `_synthesize_missing_facts` builds for a
predicate and its argument constants. -/
def c6_formula (canonical : String) (args : List String) : String :=
  if args ≠ [] then canonical ++ "(" ++ pyJoin ", " args ++ ")" else canonical

/-- The inner argument loop of `_synthesize_missing_facts`: one constant
per argument position (`enumerate(sorts)`). -/
def synth_arg_step (acc : LogicProgram × List String) (si : Nat × String) :
    LogicProgram × List String :=
  let (p, args) := acc
  let sortArg := if si.2 = "" then "Entity" else si.2
  let (p2, constName) := ensure_constant_for_sort p (some sortArg) si.1
  (p2, args ++ [constName])

/-- The body of the `for raw_name in missing_links` loop of
`_synthesize_missing_facts` (`prePredicates` is the `predicates` dict
captured before the loop). -/
def synth_step (prePredicates : List (String × PredMeta))
    (state : LogicProgram × List String × Bool) (rawName : String) :
    LogicProgram × List String × Bool :=
  let (p, existing, added) := state
  let canonical := c6_canonical rawName
  match prePredicates.lookup canonical with
  | none => (p, existing, added)
  | some spec =>
    let (p2, args) := spec.sorts.enum.foldl synth_arg_step ((p, []) : LogicProgram × List String)
    let formula := c6_formula canonical args
    if formula ∈ existing then (p2, existing, added)
    else ({ p2 with axioms := p2.axioms ++ [⟨formula⟩] }, existing ++ [formula], true)

/-- `NSLAPipelineV2._synthesize_missing_facts`: for each missing predicate
declared in the program, build one constant per argument position and
append the asserting axiom unless the formula is already present.  Returns
the updated program and the `added` flag. -/
def synthesize_missing_facts (p : LogicProgram) (missingLinks : List String) :
    LogicProgram × Bool :=
  if missingLinks = [] then (p, false)
  else
    let existing0 := (p.axioms.filter fun a => a.formula ≠ "").map fun a => pyStrip a.formula
    let r := missingLinks.foldl (synth_step p.predicates) (p, existing0, false)
    (r.1, r.2.2)

/-- `NSLAPipelineV2._evaluate_with_fact_synthesis`.  The in-place mutation
of `program` is modelled by also returning the final program, and the
third component counts how many times `_synthesize_missing_facts` ran
(pure instrumentation: it influences nothing). -/
def evaluate_with_fact_synthesis (solverOf : LogicProgram → SolverState × Option String)
    (attempts : Nat) (p : LogicProgram) : LogicFeedback × LogicProgram × Nat :=
  let (solver, query) := solverOf p
  let feedback := build_logic_feedback solver p query
  if feedback.missing_links = [] ∨ feedback.status ≠ "consistent_no_entailment" ∨
      attempts ≥ FACT_SYNTHESIS_MAX_ROUNDS then
    (feedback, p, 0)
  else
    let (p2, added) := synthesize_missing_facts p feedback.missing_links
    if !added then (feedback, p2, 1)
    else
      let (fb, p3, k) := evaluate_with_fact_synthesis solverOf (attempts + 1) p2
      (fb, p3, k + 1)
termination_by FACT_SYNTHESIS_MAX_ROUNDS - attempts
decreasing_by
  simp only [not_or, not_le] at *
  omega

/-- `NSLAPipelineV2._collect_fact_predicates`. -/
def collect_fact_predicates (p : LogicProgram) : List String :=
  let harvest := fun (text : Option String) =>
    match text with
    | none => []
    | some t =>
      (findPredTokensL t.data).filterMap fun token =>
        if pyLower token ∈ LOGICAL_KEYWORDS then none
        else
          let canonical := resolve_predicate_alias (some token)
          some (if canonical = "" then token else canonical)
  let names :=
    (p.axioms.flatMap fun a => harvest (some a.formula)) ++
    (p.rules.flatMap fun r => harvest (some r.condition) ++ harvest (some r.conclusion)) ++
    harvest p.query
  dedupFirstSeen (names.filter (· ≠ ""))

/-- `NSLAPipelineV2._augment_final_answer`. -/
def augment_final_answer (answer : String) (predicates : List String) : String :=
  let unique := (dedupFirstSeen predicates).filter (· ≠ "")
  if unique = [] then answer
  else
    let summary := "Requisiti simbolici soddisfatti: " ++ pyJoin ", " unique ++ "."
    if pyContains (pyLower answer) (pyLower summary) then answer
    else
      let separator := if pyStrip answer ≠ "" then "\n\n" else ""
      answer ++ separator ++ summary

/-- `models_v2.LLMOutputV2` (the `logic_program` dict already converted to
the `LogicProgram` model, as `run_once` does immediately). -/
structure LLMOutputV2 where
  final_answer : String
  logic_program : LogicProgram
  notes : Option String := none
deriving DecidableEq, Repr

/-- `models_v2.Phase2RunResult`, restricted to the claim-relevant fields
(canonicalization, structured stats, LLM status bookkeeping and the judge
verdict are dropped; the judge is suppressed with `guardrail_ok=False` in
the fallback branch and cannot affect any retained field). -/
structure Phase2RunResult where
  final_output : LLMOutputV2
  feedback_v2 : LogicFeedback
  guardrail : GuardrailResult
  explanation : ExplanationOutput
  fallback_used : Bool
  fallback_feedback : Option LogicFeedback
  logic_program_v1 : LogicProgram
  feedback_v1 : LogicFeedback
  answer_v1 : String

/-- `NSLAPipelineV2._build_guardrail_failure_result`. -/
def build_guardrail_failure_result (solverOf : LogicProgram → SolverState × Option String)
    (llmOutput : LLMOutputV2) (logicProgramV1 : LogicProgram) (feedbackV1 : LogicFeedback)
    (guardrail : GuardrailResult) (answerV1 : String) : Phase2RunResult :=
  let (solverFallback, queryFallback) := solverOf logicProgramV1
  let fallbackFeedback := build_logic_feedback solverFallback logicProgramV1 queryFallback
  let explanation := synthesize_explanation llmOutput.final_answer fallbackFeedback guardrail
  { final_output := llmOutput
    feedback_v2 := fallbackFeedback
    guardrail := guardrail
    explanation := explanation
    fallback_used := true
    fallback_feedback := some fallbackFeedback
    logic_program_v1 := logicProgramV1
    feedback_v1 := feedbackV1
    answer_v1 := answerV1 }

/-- The tail of `NSLAPipelineV2.run_once`, from the first guardrail check
onwards (its inputs - the sanitised, hydrated refined program inside
`llmOutputV2`, the v1 artifacts, and the solver oracle - are what the
earlier stages produced).  An `Except.error` models a Python exception
escaping `run_once`. -/
def run_once_tail (solverOf : LogicProgram → SolverState × Option String)
    (llmOutputV2 : LLMOutputV2) (logicProgramV1 : LogicProgram) (feedbackV1 : LogicFeedback)
    (answerV1 : String) : Except PErr Phase2RunResult := do
  let guardrail ← run_guardrail llmOutputV2.logic_program
  if !guardrail.ok then
    .ok (build_guardrail_failure_result solverOf llmOutputV2 logicProgramV1 feedbackV1
      guardrail answerV1)
  else
    let (feedbackV2, lp2, _) := evaluate_with_fact_synthesis solverOf 0 llmOutputV2.logic_program
    let llmOutputV2 := { llmOutputV2 with logic_program := lp2 }
    let guardrail2 ← run_guardrail lp2
    if !guardrail2.ok then
      .ok (build_guardrail_failure_result solverOf llmOutputV2 logicProgramV1 feedbackV1
        guardrail2 answerV1)
    else
      let highlightPreds := collect_fact_predicates lp2
      let finalAnswer := augment_final_answer llmOutputV2.final_answer highlightPreds
      let explanation := synthesize_explanation finalAnswer feedbackV2 guardrail2
      .ok { final_output := { llmOutputV2 with final_answer := finalAnswer }
            feedback_v2 := feedbackV2
            guardrail := guardrail2
            explanation := explanation
            fallback_used := false
            fallback_feedback := none
            logic_program_v1 := logicProgramV1
            feedback_v1 := feedbackV1
            answer_v1 := answerV1 }

/-! ## Refinement runtime (`app/refinement_runtime.py`)

The only argument of `llm_client.call_refinement_llm` that varies between
the attempts of one `run` invocation is `history_summary`, so the LLM (plus
the `LLMOutputV2(**raw_dict)` validation) is abstracted as an oracle from
that argument; `Except.error` models a raised exception.  `run` reads
nothing of `current_feedback` but `missing_links` (apart from logging). -/

/-- `RefinementRuntime.MAX_REFINEMENT_ATTEMPTS`. -/
def MAX_REFINEMENT_ATTEMPTS : Nat := 2

/-- `RefinementRuntime._covers_missing_links`. -/
def covers_missing_links (lp : LogicProgram) (missingLinks : List String) : Bool :=
  if missingLinks = [] then true
  else
    let corpus :=
      (lp.axioms.filterMap fun a => if a.formula ≠ "" then some a.formula else none) ++
      (lp.rules.flatMap fun r => [r.condition, r.conclusion]) ++
      (match lp.query with | some q => [q] | none => [])
    let haystack := pyLower (pyJoin "\n" corpus)
    missingLinks.all fun predicate =>
      let token := pyLower (pyStrip predicate)
      if token = "" then true
      else pyContains haystack (token ++ "(")

/-- `RefinementRuntime._build_retry_hint` (`sorted` of the set of truthy
links). -/
def build_retry_hint (missingLinks : List String) : String :=
  if missingLinks = [] then ""
  else
    let joined := pyJoin ", " (pySorted (dedupFirstSeen (missingLinks.filter (· ≠ ""))))
    "ATTENZIONE: aggiungi fatti o assiomi per ciascun predicato in missing_links (" ++
      joined ++ ") prima di restituire l\x27output."

/-- `RefinementRuntime._fallback_output`.  Every call site passes
`current_program`, so the dummy-builder branch is dead. -/
def fallback_output (previousAnswer : Option String) (currentProgram : LogicProgram) :
    LLMOutputV2 :=
  let answer :=
    match previousAnswer with
    | some a =>
      if a ≠ "" then a else "Risposta generica (fallback) in attesa di un refinement valido."
    | none => "Risposta generica (fallback) in attesa di un refinement valido."
  ⟨answer, currentProgram, some "Fallback refinement output"⟩

/-- The `while attempts < MAX_REFINEMENT_ATTEMPTS` loop of
`RefinementRuntime.run`, with the remaining attempt budget as fuel.  The
second returned component records the `history_summary` argument of each
LLM call actually made (pure instrumentation). -/
def refinement_run_go (llm : Option String → Except Unit LLMOutputV2)
    (currentProgram : LogicProgram) (missingLinks : List String)
    (previousAnswer : Option String) (historySummary : Option String) :
    Nat → String → Option LLMOutputV2 → List (Option String) →
      LLMOutputV2 × List (Option String)
  | 0, _, lastResult, calls =>
    (match lastResult with
     | some r => r
     | none => fallback_output previousAnswer currentProgram, calls)
  | n + 1, retryHint, lastResult, calls =>
    let runtimeHistory :=
      if retryHint ≠ "" then
        let base :=
          match historySummary with
          | some h =>
            if h ≠ "" then h else "Nessuna iterazione precedente: primo refinement."
          | none => "Nessuna iterazione precedente: primo refinement."
        some (base ++ "\n\n" ++ retryHint)
      else historySummary
    match llm runtimeHistory with
    | .error _ => (fallback_output previousAnswer currentProgram, calls ++ [runtimeHistory])
    | .ok result =>
      if covers_missing_links result.logic_program missingLinks then
        (result, calls ++ [runtimeHistory])
      else
        refinement_run_go llm currentProgram missingLinks previousAnswer historySummary
          n (build_retry_hint missingLinks) (some result) (calls ++ [runtimeHistory])

/-- `RefinementRuntime.run`. -/
def refinement_run (llm : Option String → Except Unit LLMOutputV2)
    (currentProgram : LogicProgram) (missingLinks : List String)
    (previousAnswer : Option String) (historySummary : Option String) :
    LLMOutputV2 × List (Option String) :=
  refinement_run_go llm currentProgram missingLinks previousAnswer historySummary
    MAX_REFINEMENT_ATTEMPTS "" none []

/-! ## Iteration manager (`app/iteration_manager.py`)

One iteration of `_append_iteration` (refinement call, normalisation,
canonical-rule injection, solver build, feedback build and post-processing)
is abstracted as an oracle `next` from the current history to the appended
iteration's feedback; `next []` is iteration 0 (which `run` also produces
through `_append_iteration`).  `_should_stop` reads only each state's
feedback, so the history is modelled as the list of feedbacks. -/

/-- `models_v2.NSLAIterativeConfig` (the `eps` field is read by nothing in
the iteration manager). -/
structure NSLAIterativeConfig where
  max_iters : Nat := 3
  stop_on_status : List String := ["consistent_entails", "inconsistent"]

/-- `IterationManager._should_stop`. -/
def should_stop (cfg : NSLAIterativeConfig) (history : List LogicFeedback) : Bool :=
  match history.reverse with
  | [] => false
  | last :: rest =>
    if last.status ∈ cfg.stop_on_status then true
    else if history.length ≥ cfg.max_iters then true
    else if history.length ≥ 2 then
      match rest with
      | prev :: _ =>
        prev.status == last.status &&
        pySorted prev.missing_links == pySorted last.missing_links &&
        pySorted prev.conflicting_axioms == pySorted last.conflicting_axioms
      | [] => false
    else false

/-- The `while not self._should_stop(history)` loop of
`IterationManager.run` (each pass appends one iteration and breaks once
`max_iters` states exist). -/
def iteration_run_loop (cfg : NSLAIterativeConfig)
    (next : List LogicFeedback → LogicFeedback) (history : List LogicFeedback) :
    List LogicFeedback :=
  if should_stop cfg history then history
  else if (history ++ [next history]).length ≥ cfg.max_iters then history ++ [next history]
  else iteration_run_loop cfg next (history ++ [next history])
termination_by cfg.max_iters - history.length
decreasing_by
  simp only [List.length_append, List.length_cons, List.length_nil, not_le] at *
  omega

/-- `IterationManager.run`, reduced to the produced history (iteration 0 is
appended unconditionally, then the loop runs). -/
def iteration_manager_run (cfg : NSLAIterativeConfig)
    (next : List LogicFeedback → LogicFeedback) : List LogicFeedback :=
  iteration_run_loop cfg next [next []]

/-! ## Theorems -/

/-- C8 (corrected): `resolve_sort_alias` normalises whitespace/case and
looks the name up in the sort alias map; on a miss it applies the substring
heuristics (`obbligat` → `Debitore`, `titolare`/`creditor` → `Creditore`,
`accordo`/`contratt` → `Contratto`); a name that matches neither is
returned verbatim (whitespace-stripped) - not replaced by `Entity` - and
only a `None`/empty/whitespace-only input falls back to the sentinel
`Entity`.  No branch can raise (the function is total). -/
theorem C8_resolve_sort_alias_characterisation :
    (resolve_sort_alias none = "Entity") ∧
    (∀ raw : String, raw = "" → resolve_sort_alias (some raw) = "Entity") ∧
    (∀ raw canonical, raw ≠ "" →
      SORT_ALIAS_MAP.lookup (pyLower (pyStrip raw)) = some canonical →
      resolve_sort_alias (some raw) = canonical) ∧
    (∀ raw, raw ≠ "" → SORT_ALIAS_MAP.lookup (pyLower (pyStrip raw)) = none →
      pyContains (pyLower (pyStrip raw)) "obbligat" = true →
      resolve_sort_alias (some raw) = "Debitore") ∧
    (∀ raw, raw ≠ "" → SORT_ALIAS_MAP.lookup (pyLower (pyStrip raw)) = none →
      pyContains (pyLower (pyStrip raw)) "obbligat" = false →
      (pyContains (pyLower (pyStrip raw)) "titolare" = true ∨
        pyContains (pyLower (pyStrip raw)) "creditor" = true) →
      resolve_sort_alias (some raw) = "Creditore") ∧
    (∀ raw, raw ≠ "" → SORT_ALIAS_MAP.lookup (pyLower (pyStrip raw)) = none →
      pyContains (pyLower (pyStrip raw)) "obbligat" = false →
      pyContains (pyLower (pyStrip raw)) "titolare" = false →
      pyContains (pyLower (pyStrip raw)) "creditor" = false →
      (pyContains (pyLower (pyStrip raw)) "accordo" = true ∨
        pyContains (pyLower (pyStrip raw)) "contratt" = true) →
      resolve_sort_alias (some raw) = "Contratto") ∧
    (∀ raw, raw ≠ "" → SORT_ALIAS_MAP.lookup (pyLower (pyStrip raw)) = none →
      pyContains (pyLower (pyStrip raw)) "obbligat" = false →
      pyContains (pyLower (pyStrip raw)) "titolare" = false →
      pyContains (pyLower (pyStrip raw)) "creditor" = false →
      pyContains (pyLower (pyStrip raw)) "accordo" = false →
      pyContains (pyLower (pyStrip raw)) "contratt" = false →
      pyStrip raw ≠ "" →
      resolve_sort_alias (some raw) = pyStrip raw) ∧
    (∀ raw, raw ≠ "" → pyStrip raw = "" →
      SORT_ALIAS_MAP.lookup (pyLower (pyStrip raw)) = none →
      resolve_sort_alias (some raw) = "Entity") := by
  refine ⟨rfl, ?_, ?_, ?_, ?_, ?_, ?_, ?_⟩
  · intro raw h
    simp [resolve_sort_alias, h]
  · intro raw canonical h hlook
    simp [resolve_sort_alias, h, hlook]
  · intro raw h hlook hob
    simp [resolve_sort_alias, h, hlook, hob]
  · intro raw h hlook hob htc
    rcases htc with ht | hc
    · simp [resolve_sort_alias, h, hlook, hob, ht]
    · simp [resolve_sort_alias, h, hlook, hob, hc]
  · intro raw h hlook hob ht hc hac
    rcases hac with ha | hco
    · simp [resolve_sort_alias, h, hlook, hob, ht, hc, ha]
    · simp [resolve_sort_alias, h, hlook, hob, ht, hc, hco]
  · intro raw h hlook hob ht hc ha hco hkey
    simp [resolve_sort_alias, h, hlook, hob, ht, hc, ha, hco, hkey]
  · intro raw h hkey hlook
    rw [hkey] at hlook
    simp [resolve_sort_alias, h, hkey, hlook]
    decide

set_option maxRecDepth 10000 in
/-- C8 witness: the characterisation applied at concrete inputs covering
the alias-map hit, each heuristic, the verbatim fallback and the sentinel
case. -/
theorem C8_resolve_sort_alias_characterisation_witness :
    resolve_sort_alias (some "soggetto debitore") = "Debitore" ∧
    resolve_sort_alias (some "parte obbligata in giudizio") = "Debitore" ∧
    resolve_sort_alias (some "titolare del bene") = "Creditore" ∧
    resolve_sort_alias (some "grande accordo") = "Contratto" ∧
    resolve_sort_alias (some "Velocipede") = "Velocipede" ∧
    resolve_sort_alias (some "  ") = "Entity" :=
  ⟨C8_resolve_sort_alias_characterisation.2.2.1 "soggetto debitore" "Debitore"
      (by decide) (by decide),
   C8_resolve_sort_alias_characterisation.2.2.2.1 "parte obbligata in giudizio"
      (by decide) (by decide) (by decide),
   C8_resolve_sort_alias_characterisation.2.2.2.2.1 "titolare del bene"
      (by decide) (by decide) (by decide) (Or.inl (by decide)),
   C8_resolve_sort_alias_characterisation.2.2.2.2.2.1 "grande accordo"
      (by decide) (by decide) (by decide) (by decide) (by decide) (Or.inl (by decide)),
   C8_resolve_sort_alias_characterisation.2.2.2.2.2.2.1 "Velocipede"
      (by decide) (by decide) (by decide) (by decide) (by decide) (by decide)
      (by decide) (by decide),
   C8_resolve_sort_alias_characterisation.2.2.2.2.2.2.2 "  "
      (by decide) (by decide) (by decide)⟩

set_option maxRecDepth 10000 in
/-- C8 counterexample: the claim's sentence "for every non-empty name
matching neither the alias map nor a heuristic substring it falls back to
the sentinel `Entity`" is false: `"Velocipede"` misses the alias map and
every heuristic substring, yet `resolve_sort_alias` returns it verbatim,
not `Entity`. -/
theorem C8_entity_fallback_counterexample :
    resolve_sort_alias (some "Velocipede") = "Velocipede" ∧
    "Velocipede" ≠ "Entity" ∧
    SORT_ALIAS_MAP.lookup (pyLower (pyStrip "Velocipede")) = none ∧
    pyContains (pyLower (pyStrip "Velocipede")) "obbligat" = false ∧
    pyContains (pyLower (pyStrip "Velocipede")) "titolare" = false ∧
    pyContains (pyLower (pyStrip "Velocipede")) "creditor" = false ∧
    pyContains (pyLower (pyStrip "Velocipede")) "accordo" = false ∧
    pyContains (pyLower (pyStrip "Velocipede")) "contratt" = false := by
  decide

/-- The conflicting-axioms computation the specification describes
(written from the spec's words, for comparison with the code): take the
solver's unsat core, and enumerate assertion indices only when the core is
empty. -/
def spec_conflicting_from_core (core : List String) (numAssertions : Nat) : List String :=
  if core ≠ [] then core
  else (List.range numAssertions).map fun i => "assertion_" ++ toString i

/-- An UNSAT solver state whose unsat core is a strict subset of the
assertions (Z3 reports the core `assertion_0` while two formulas are
asserted). -/
def c9State : SolverState :=
  { checkResult := .unsat
    entails := fun _ => false
    assertions := ["A", "B"]
    unsatCore := ["assertion_0"] }

/-- C9 counterexample: on an UNSAT state with the non-empty unsat core
`["assertion_0"]` and two assertions, `build_logic_feedback` reports
`["assertion_0", "assertion_1"]` - it always enumerates all assertion
indices and never reads the core - contradicting the claim that
`conflicting_axioms` is populated from the unsat core with the index
enumeration used only when the core is empty. -/
theorem C9_unsat_core_counterexample :
    (build_logic_feedback c9State {} none).conflicting_axioms = ["assertion_0", "assertion_1"] ∧
    spec_conflicting_from_core c9State.unsatCore c9State.assertions.length = ["assertion_0"] ∧
    c9State.unsatCore ≠ [] ∧
    (build_logic_feedback c9State {} none).conflicting_axioms ≠
      spec_conflicting_from_core c9State.unsatCore c9State.assertions.length := by
  refine ⟨rfl, rfl, by decide, by decide⟩

/-- C9 (corrected): whenever the initial solver check is UNSAT,
`build_logic_feedback` populates `conflicting_axioms` by enumerating the
indices of all current solver assertions (`assertion_i`), falling back to
rule indices (`rule_i`) when there is no assertion and to `["conflict_0"]`
when there is no rule either; the unsat core is never consulted, and in
every inconsistent outcome `conflicting_axioms` is non-empty. -/
theorem C9_inconsistent_conflicting (st : SolverState) (lp : LogicProgram)
    (q : Option String) (h : st.checkResult = .unsat) :
    (build_logic_feedback st lp q).status = "inconsistent" ∧
    (build_logic_feedback st lp q).conflicting_axioms =
      (if st.assertions ≠ [] then
        (List.range st.assertions.length).map fun i => "assertion_" ++ toString i
       else if lp.rules ≠ [] then
        (List.range lp.rules.length).map fun i => "rule_" ++ toString i
       else ["conflict_0"]) ∧
    (build_logic_feedback st lp q).conflicting_axioms ≠ [] := by
  have hmapeq : ∀ (l : List String) (pre : String), ((List.range l.length).map
      fun i => pre ++ toString i) = [] ↔ l = [] := by
    intro l pre
    constructor
    · intro hl
      have := congrArg List.length hl
      simp at this
      exact this
    · intro hl
      subst hl
      rfl
  unfold build_logic_feedback
  rw [h]
  rcases hA : st.assertions with _ | ⟨a, arest⟩
  · rcases hR : lp.rules with _ | ⟨r, rrest⟩
    · simp
    · refine ⟨rfl, ?_, ?_⟩
      · simp [hmapeq]
      · simp [hmapeq]
  · refine ⟨rfl, ?_, ?_⟩
    · simp [hmapeq]
    · simp [hmapeq]

/-- C9 witness: the corrected description applied to a concrete UNSAT
state. -/
theorem C9_inconsistent_conflicting_witness :
    (build_logic_feedback c9State {} none).status = "inconsistent" ∧
    (build_logic_feedback c9State {} none).conflicting_axioms =
      (if c9State.assertions ≠ [] then
        (List.range c9State.assertions.length).map fun i => "assertion_" ++ toString i
       else if LogicProgram.rules {} ≠ [] then
        (List.range (LogicProgram.rules {}).length).map fun i => "rule_" ++ toString i
       else ["conflict_0"]) ∧
    (build_logic_feedback c9State {} none).conflicting_axioms ≠ [] :=
  C9_inconsistent_conflicting c9State {} none rfl

/-- C1 (confirmed): `build_logic_feedback` classifies every solver check as
the spec's decision procedure does.  UNSAT gives `inconsistent`; SAT or
UNKNOWN with no extractable query name gives `consistent_no_entailment`
with both lists empty; otherwise, when the entailment test succeeds (the
oracle `st.entails n` holds exactly when `check(solver ∧ ¬Bool(n))` is
UNSAT, which is what `_solver_entails` checks), the result is
`consistent_entails` with `missing_links` and `conflicting_axioms` both
empty. -/
theorem C1_feedback_classification (st : SolverState) (lp : LogicProgram) (q : Option String) :
    (st.checkResult = .unsat → (build_logic_feedback st lp q).status = "inconsistent") ∧
    ((st.checkResult = .sat ∨ st.checkResult = .unknown) →
      extract_query_name q lp = "" →
      build_logic_feedback st lp q =
        ⟨"consistent_no_entailment", [], [],
          "Il sistema è coerente ma non è stata richiesta alcuna conclusione."⟩) ∧
    (st.checkResult ≠ .unsat →
      extract_query_name q lp ≠ "" →
      st.entails (extract_query_name q lp) = true →
      build_logic_feedback st lp q =
        ⟨"consistent_entails", [], [], "Il sistema è coerente e implica la conclusione."⟩) := by
  refine ⟨?_, ?_, ?_⟩
  · intro h
    unfold build_logic_feedback
    rw [h]
  · intro h hq
    rcases h with h | h <;>
      · unfold build_logic_feedback
        rw [h]
        simp [hq]
  · intro h hq hent
    unfold build_logic_feedback
    cases hc : st.checkResult with
    | unsat => exact absurd hc h
    | sat => simp [hq, hent]
    | unknown => simp [hq, hent]

/-- A satisfiable solver state that entails every atom. -/
def satEntailsAll : SolverState :=
  { checkResult := .sat, entails := fun _ => true, assertions := [], unsatCore := [] }

/-- A satisfiable solver state that entails no atom. -/
def satEntailsNone : SolverState :=
  { checkResult := .sat, entails := fun _ => false, assertions := [], unsatCore := [] }

/-- C1 witness: the three classification branches at concrete solver
states and programs. -/
theorem C1_feedback_classification_witness :
    (build_logic_feedback c9State {} none).status = "inconsistent" ∧
    build_logic_feedback satEntailsNone {} none =
      ⟨"consistent_no_entailment", [], [],
        "Il sistema è coerente ma non è stata richiesta alcuna conclusione."⟩ ∧
    build_logic_feedback satEntailsAll { query := some "Mora(d)" } none =
      ⟨"consistent_entails", [], [], "Il sistema è coerente e implica la conclusione."⟩ :=
  ⟨(C1_feedback_classification c9State {} none).1 rfl,
   (C1_feedback_classification satEntailsNone {} none).2.1 (Or.inl rfl) rfl,
   (C1_feedback_classification satEntailsAll { query := some "Mora(d)" } none).2.2
     (by decide) (by decide) rfl⟩

/-- A non-empty history whose length has reached `max_iters` always
satisfies `_should_stop` (its second condition). -/
lemma should_stop_of_full (cfg : NSLAIterativeConfig) (hist : List LogicFeedback)
    (hne : hist ≠ []) (hlen : cfg.max_iters ≤ hist.length) :
    should_stop cfg hist = true := by
  unfold should_stop
  cases h : hist.reverse with
  | nil => exact absurd (List.reverse_eq_nil_iff.mp h) hne
  | cons last rest =>
    by_cases h1 : last.status ∈ cfg.stop_on_status
    · simp [h1]
    · simp [h1, hlen]

/-- `take` through a prefix. -/
lemma take_of_prefix_eq {α : Type} {l1 l2 : List α} (h : l1 <+: l2) {k : Nat}
    (hk : k ≤ l1.length) : l2.take k = l1.take k := by
  obtain ⟨t, rfl⟩ := h
  exact List.take_append_of_le_length hk

/-- Invariants of the iteration loop: the result extends the input, stays
within `max_iters`, satisfies `_should_stop`, and no intermediate history
(no strict prefix extending the input) satisfied it. -/
lemma iteration_run_loop_spec (cfg : NSLAIterativeConfig)
    (next : List LogicFeedback → LogicFeedback) :
    ∀ hist : List LogicFeedback, hist ≠ [] → hist.length ≤ cfg.max_iters →
      (iteration_run_loop cfg next hist).length ≤ cfg.max_iters ∧
      hist <+: iteration_run_loop cfg next hist ∧
      should_stop cfg (iteration_run_loop cfg next hist) = true ∧
      (∀ k, hist.length ≤ k → k < (iteration_run_loop cfg next hist).length →
        should_stop cfg ((iteration_run_loop cfg next hist).take k) = false) := by
  intro hist
  induction hist using iteration_run_loop.induct cfg next with
  | case1 x hstop =>
    intro hne hlen
    rw [iteration_run_loop.eq_def, if_pos hstop]
    exact ⟨hlen, List.prefix_refl x, hstop, fun k hk1 hk2 => absurd hk1 (by omega)⟩
  | case2 x hstop hfull =>
    intro hne hlen
    have hxlt : x.length < cfg.max_iters := by
      rcases Nat.lt_or_ge x.length cfg.max_iters with h | h
      · exact h
      · exact absurd (should_stop_of_full cfg x hne h) (by simpa using hstop)
    rw [iteration_run_loop.eq_def, if_neg hstop, if_pos hfull]
    refine ⟨?_, List.prefix_append x [next x], ?_, ?_⟩
    · simp
      omega
    · exact should_stop_of_full cfg (x ++ [next x]) (by simp) (by simpa using hfull)
    · intro k hk1 hk2
      simp at hk2
      have hkx : k = x.length := by omega
      subst hkx
      rw [List.take_append_of_le_length (Nat.le_refl _), List.take_length]
      simpa using hstop
  | case3 x hstop hnotfull ih =>
    intro hne hlen
    have hxlt : (x ++ [next x]).length ≤ cfg.max_iters := by
      simp at hnotfull ⊢
      omega
    obtain ⟨ihlen, ihpre, ihstop, ihmin⟩ := ih (by simp) hxlt
    rw [iteration_run_loop.eq_def, if_neg hstop, if_neg hnotfull]
    refine ⟨ihlen, (List.prefix_append x [next x]).trans ihpre, ihstop, ?_⟩
    · intro k hk1 hk2
      rcases Nat.lt_or_ge k (x ++ [next x]).length with h | h
      · have hkx : k = x.length := by
          simp at h
          omega
        subst hkx
        rw [take_of_prefix_eq ihpre (by simp), List.take_append_of_le_length (Nat.le_refl _),
          List.take_length]
        simpa using hstop
      · exact ihmin k h hk2

/-- C4 (confirmed): for every configuration with `max_iters ≥ 1` (and the
default stop-set `consistent_entails`/`inconsistent`), `IterationManager.run`
terminates with a history of at least one and at most `max_iters`
iteration states, the final history satisfies a stopping condition of
`_should_stop` (status in the stop-set, count reached `max_iters`, or a
two-iteration fixpoint of status and sorted `missing_links` /
`conflicting_axioms`), and the loop stopped as soon as one held: no
shorter history reached during the run satisfied `_should_stop`. -/
theorem C4_iteration_loop_bounded_stop (maxIters : Nat)
    (next : List LogicFeedback → LogicFeedback) (hmax : 1 ≤ maxIters) :
    1 ≤ (iteration_manager_run { max_iters := maxIters } next).length ∧
    (iteration_manager_run { max_iters := maxIters } next).length ≤ maxIters ∧
    should_stop { max_iters := maxIters } (iteration_manager_run { max_iters := maxIters } next)
      = true ∧
    (∀ k, 1 ≤ k → k < (iteration_manager_run { max_iters := maxIters } next).length →
      should_stop { max_iters := maxIters }
        ((iteration_manager_run { max_iters := maxIters } next).take k) = false) := by
  obtain ⟨hlen, hpre, hstop, hmin⟩ :=
    iteration_run_loop_spec { max_iters := maxIters } next [next []] (by simp)
      (by simpa using hmax)
  have h1 : 1 ≤ (iteration_manager_run { max_iters := maxIters } next).length := by
    have := hpre.length_le
    simpa [iteration_manager_run] using this
  exact ⟨h1, hlen, hstop, fun k hk1 hk2 => hmin k (by simpa using hk1) hk2⟩

/-- A refinement oracle that always reports the same
`consistent_no_entailment` feedback (so the loop hits the fixpoint
condition). -/
def c4next : List LogicFeedback → LogicFeedback :=
  fun _ => ⟨"consistent_no_entailment", [], ["NessoCausale"], ""⟩

/-- C4 witness: the loop instantiated at `max_iters = 3` with a constant
oracle; it stops at the two-iteration fixpoint. -/
theorem C4_iteration_loop_bounded_stop_witness :
    1 ≤ (iteration_manager_run { max_iters := 3 } c4next).length ∧
    (iteration_manager_run { max_iters := 3 } c4next).length ≤ 3 ∧
    should_stop { max_iters := 3 } (iteration_manager_run { max_iters := 3 } c4next) = true ∧
    (∀ k, 1 ≤ k → k < (iteration_manager_run { max_iters := 3 } c4next).length →
      should_stop { max_iters := 3 }
        ((iteration_manager_run { max_iters := 3 } c4next).take k) = false) :=
  C4_iteration_loop_bounded_stop 3 c4next (by decide)

/-- `dropWhile` is the identity when the head does not satisfy the
predicate. -/
lemma dropWhile_eq_self_head {p : Char → Bool} {l : List Char}
    (h : ∀ c, l.head? = some c → p c = false) : l.dropWhile p = l := by
  cases l with
  | nil => rfl
  | cons a rest => rw [List.dropWhile_cons, h a rfl]; simp

/-- `str.strip()` is the identity when neither end is whitespace. -/
lemma stripL_eq_self {l : List Char}
    (h1 : ∀ c, l.head? = some c → pyWS c = false)
    (h2 : ∀ c, l.getLast? = some c → pyWS c = false) : stripL l = l := by
  unfold stripL
  rw [dropWhile_eq_self_head h1,
    dropWhile_eq_self_head (fun c hc => h2 c (by rwa [List.head?_reverse] at hc)),
    List.reverse_reverse]

/-- Identifier characters are not whitespace. -/
lemma ident_not_ws {c : Char} (h : isIdentChar c = true) : pyWS c = false := by
  by_contra hws
  simp only [Bool.not_eq_false, pyWS, Bool.or_eq_true, decide_eq_true_eq] at hws
  rcases hws with ((((h' | h') | h') | h') | h') | h' <;> subst h' <;>
    simp [isIdentChar, isIdentStart] at h

/-- Identifier characters are not `'('` (or `')'`, or a comma). -/
lemma ident_not_char {c d : Char} (h : isIdentChar c = true) (hd : isIdentChar d = false) :
    c ≠ d := by
  intro he
  subst he
  rw [h] at hd
  exact absurd hd (by simp)

/-- `s.split(sep, 1)` around the first separator occurrence. -/
lemma splitOnceL_append (sep : Char) (l1 l2 : List Char) (h : sep ∉ l1) :
    splitOnceL sep (l1 ++ sep :: l2) = some (l1, l2) := by
  induction l1 with
  | nil => simp [splitOnceL]
  | cons c rest ih =>
    simp only [List.mem_cons, not_or] at h
    have hne : ¬(c = sep) := fun he => h.1 he.symm
    simp only [List.cons_append, splitOnceL, hne, if_false, List.append_eq, ih h.2]

/-- `[c]` is a suffix of `l ++ [c]`. -/
lemma isSuffixOf_concat (l : List Char) (c : Char) : ([c].isSuffixOf (l ++ [c])) = true := by
  simp [List.isSuffixOf]

set_option maxHeartbeats 1000000 in
/-- C10 (confirmed): for every predicate declared with arity `n > 0`, the
DSL parser maps every application of that predicate to the same solver
term regardless of the written argument list: `_parse_function_call`
discards the given arguments and applies the predicate to the fixed
placeholder constants `{name}_arg_0 … {name}_arg_{n-1}`, so any two atoms
`Pred(a1,…)` and `Pred(b1,…)` parse to equal terms and can never be
distinguished by solving or entailment. -/
theorem C10_placeholder_arguments (st : ParserState) (strict : Bool) (name cn : String)
    (n : Nat) (blob1 blob2 : String)
    (hname1 : name.data ≠ [])
    (hname2 : ∀ c ∈ name.data, isIdentChar c = true)
    (hres : resolve_predicate_alias (some name) = cn)
    (harity : st.arityOf cn = some n) (hn : 0 < n) :
    parse_function_call st strict (name ++ "(" ++ blob1 ++ ")") =
      .ok (.predApp cn ((List.range n).map fun i => cn ++ "_arg_" ++ toString i), st) ∧
    parse_function_call st strict (name ++ "(" ++ blob1 ++ ")") =
      parse_function_call st strict (name ++ "(" ++ blob2 ++ ")") := by
  have main : ∀ blob : String,
      parse_function_call st strict (name ++ "(" ++ blob ++ ")") =
        .ok (.predApp cn ((List.range n).map fun i => cn ++ "_arg_" ++ toString i), st) := by
    intro blob
    have hdata : (name ++ "(" ++ blob ++ ")").data =
        (name.data ++ '(' :: blob.data) ++ [')'] := by
      simp [String.data_append]
    have hstrip : pyStrip (name ++ "(" ++ blob ++ ")") = name ++ "(" ++ blob ++ ")" := by
      unfold pyStrip
      rw [hdata, stripL_eq_self, ← hdata]
      · intro c hc
        cases hd : name.data with
        | nil => exact absurd hd hname1
        | cons a rest =>
          rw [hd] at hc
          simp at hc
          subst hc
          exact ident_not_ws (hname2 a (by rw [hd]; exact List.mem_cons_self a rest))
      · intro c hc
        rw [List.getLast?_concat] at hc
        cases hc
        decide
    have hends : pyEndsWith (name ++ "(" ++ blob ++ ")") ")" = true := by
      unfold pyEndsWith
      rw [hdata]
      exact isSuffixOf_concat _ ')'
    have hdrop : pyDropLast (name ++ "(" ++ blob ++ ")") =
        (⟨name.data ++ '(' :: blob.data⟩ : String) := by
      unfold pyDropLast
      rw [hdata, List.dropLast_concat]
    have hsplit : pySplitOnce (⟨name.data ++ '(' :: blob.data⟩ : String) '(' =
        some (name, blob) := by
      unfold pySplitOnce
      rw [show (⟨name.data ++ '(' :: blob.data⟩ : String).data =
        name.data ++ '(' :: blob.data from rfl]
      rw [splitOnceL_append '(' name.data blob.data
        (fun hm => absurd rfl (ident_not_char (hname2 _ hm) (by decide)))]
    have hstripName : pyStrip name = name := by
      unfold pyStrip
      rw [stripL_eq_self]
      · intro c hc
        exact ident_not_ws (hname2 c (List.mem_of_mem_head? hc))
      · intro c hc
        exact ident_not_ws (hname2 c (List.mem_of_getLast?_eq_some hc))
    unfold parse_function_call
    rw [hstrip]
    simp only [hends, hdrop, hsplit, hstripName, hres, harity, Bool.not_true,
      Bool.false_eq_true, if_false]
    rw [if_neg (by omega)]
  exact ⟨main blob1, (main blob1).trans (main blob2).symm⟩

/-- C10 witness: two different argument tuples for the binary predicate
`ContrattoValido` parse to the same placeholder application. -/
theorem C10_placeholder_arguments_witness :
    parse_function_call ⟨[("ContrattoValido", 2)], false⟩ true "ContrattoValido(x, c)" =
      .ok (.predApp "ContrattoValido"
        ((List.range 2).map fun i => "ContrattoValido" ++ "_arg_" ++ toString i),
        ⟨[("ContrattoValido", 2)], false⟩) ∧
    parse_function_call ⟨[("ContrattoValido", 2)], false⟩ true "ContrattoValido(x, c)" =
      parse_function_call ⟨[("ContrattoValido", 2)], false⟩ true "ContrattoValido(y, z)" := by
  have h := C10_placeholder_arguments ⟨[("ContrattoValido", 2)], false⟩ true
    "ContrattoValido" "ContrattoValido" 2 "x, c" "y, z"
    (by decide) (by decide) (by decide) (by decide) (by decide)
  exact h

/-- The head of `dropWhile p` never satisfies `p`. -/
lemma head?_dropWhile {p : Char → Bool} {l : List Char} {c : Char}
    (h : (l.dropWhile p).head? = some c) : p c = false := by
  have := List.head?_dropWhile_not p l
  rw [h] at this
  exact this

/-- `dropWhile` keeps the last element (when its result is non-empty). -/
lemma getLast?_dropWhile {p : Char → Bool} {l : List Char} {c : Char}
    (h : (l.dropWhile p).getLast? = some c) : l.getLast? = some c := by
  obtain ⟨t, ht⟩ := List.dropWhile_suffix (l := l) p
  rw [← ht]
  rw [List.getLast?_append_of_ne_nil]
  · exact h
  · intro hnil
    rw [hnil] at h
    simp at h

/-- `str.strip()` is idempotent. -/
lemma stripL_idem (l : List Char) : stripL (stripL l) = stripL l := by
  apply stripL_eq_self
  · intro c hc
    unfold stripL at hc
    rw [List.head?_reverse] at hc
    have := getLast?_dropWhile hc
    rw [List.getLast?_reverse] at this
    exact head?_dropWhile this
  · intro c hc
    unfold stripL at hc
    rw [List.getLast?_reverse] at hc
    exact head?_dropWhile hc

/-- `str.strip()` is idempotent (string form). -/
lemma pyStrip_idem (s : String) : pyStrip (pyStrip s) = pyStrip s := by
  unfold pyStrip
  exact congrArg String.mk (stripL_idem s.data)

/-- A successful `_extract_query_atom` returns the stripped query text as
`raw`; it is non-empty and already stripped. -/
lemma extract_query_atom_strip {q raw pred : String} {args : List String}
    (h : extract_query_atom (some q) = some (raw, pred, args)) :
    pyStrip raw = raw ∧ raw ≠ "" := by
  simp only [extract_query_atom] at h
  split at h
  · exact absurd h (by simp)
  · rename_i hne
    split at h
    · simp only [Option.some.injEq, Prod.mk.injEq] at h
      obtain ⟨h1, _⟩ := h
      subst h1
      exact ⟨pyStrip_idem q, hne⟩
    · split at h
      · simp only [Option.some.injEq, Prod.mk.injEq] at h
        obtain ⟨h1, _⟩ := h
        subst h1
        exact ⟨pyStrip_idem q, hne⟩
      · simp only [Option.some.injEq, Prod.mk.injEq] at h
        obtain ⟨h1, _⟩ := h
        subst h1
        exact ⟨pyStrip_idem q, hne⟩

/-- `_ensure_sort_definition` changes only `sorts`. -/
lemma ensure_sort_definition_fields (p : LogicProgram) (s : String) :
    (cru_ensure_constant.ensure_sort_definition p s).query = p.query ∧
    (cru_ensure_constant.ensure_sort_definition p s).rules = p.rules := by
  unfold cru_ensure_constant.ensure_sort_definition
  split
  · exact ⟨rfl, rfl⟩
  · exact ⟨rfl, rfl⟩

/-- `_ensure_constant` changes only `constants` and `sorts`. -/
lemma cru_ensure_constant_fields (p : LogicProgram) (b s : String) :
    (cru_ensure_constant p b s).1.query = p.query ∧
    (cru_ensure_constant p b s).1.rules = p.rules := by
  unfold cru_ensure_constant
  cases hf : p.constants.find? (fun c => cru_resolve_sort c.2.sort = some s) with
  | some c => exact ⟨rfl, rfl⟩
  | none =>
    exact ⟨(ensure_sort_definition_fields _ s).1, (ensure_sort_definition_fields _ s).2⟩

/-- The canonical arity the five builders require of the query's argument
list (stated from the builders' guards, for the amended C5). -/
def c5_canonical_arity (pred : String) : Nat :=
  if pred = "ContrattoValido" then 2
  else if pred = "ResponsabilitaContrattuale" then 3
  else if pred = "ContrattoAdesione" then 1
  else 2

/-- Shared facts about the five canonical-rule builders: they never touch
`query` or `rules`, they return `none` exactly when the argument count
misses the canonical arity, and in that case they return the program
unchanged. -/
lemma builder_facts {pred : String}
    {b : LogicProgram → List String → LogicProgram × Option RuleR}
    (hb : canonical_rule_builder pred = some b)
    (p : LogicProgram) (args : List String) :
    (b p args).1.query = p.query ∧ (b p args).1.rules = p.rules ∧
    ((b p args).2 = none → (b p args).1 = p) ∧
    ((b p args).2.isSome = true ↔ args.length = c5_canonical_arity pred) := by
  unfold canonical_rule_builder at hb
  split at hb
  · rename_i hpred
    cases hb
    subst hpred
    rcases args with _ | ⟨a0, _ | ⟨a1, _ | ⟨a2, rest⟩⟩⟩ <;>
      simp [build_rule_contratto_valido, c5_canonical_arity]
  · split at hb
    · rename_i hpred
      cases hb
      subst hpred
      rcases args with _ | ⟨a0, _ | ⟨a1, _ | ⟨a2, _ | ⟨a3, rest⟩⟩⟩⟩ <;>
        simp [build_rule_responsabilita_contrattuale, c5_canonical_arity]
    · split at hb
      · rename_i hpred hpred2
        cases hb
        subst hpred2
        rcases args with _ | ⟨a0, _ | ⟨a1, rest⟩⟩ <;>
          simp [build_rule_contratto_adesione, c5_canonical_arity]
        obtain ⟨hq1, hr1⟩ := cru_ensure_constant_fields p (a0 ++ "_professionista") "Professionista"
        obtain ⟨hq2, hr2⟩ := cru_ensure_constant_fields
          (cru_ensure_constant p (a0 ++ "_professionista") "Professionista").1
          (a0 ++ "_consumatore") "Consumatore"
        exact ⟨hq2.trans hq1, hr2.trans hr1⟩
      · split at hb
        · rename_i hpred
          cases hb
          subst hpred
          rcases args with _ | ⟨a0, _ | ⟨a1, _ | ⟨a2, rest⟩⟩⟩ <;>
            simp [build_rule_usucapione_ordinaria, c5_canonical_arity]
        · split at hb
          · rename_i hpred1 hpred2 hpred3 hpred4 hpred
            cases hb
            subst hpred
            rcases args with _ | ⟨a0, _ | ⟨a1, _ | ⟨a2, rest⟩⟩⟩ <;>
              simp [build_rule_usucapione_abbreviata, c5_canonical_arity, hpred1, hpred2, hpred3,
                hpred4]
            obtain ⟨hq1, hr1⟩ := cru_ensure_constant_fields p ("titolo_" ++ a1) "Titolo"
            exact ⟨hq1, hr1⟩
          · cases hb

/-- `ensure_canonical_query_rule` is a no-op when a rule already concludes
the query atom. -/
lemma ensure_noop_of_has (P : LogicProgram) (raw pred : String) (args : List String)
    (b : LogicProgram → List String → LogicProgram × Option RuleR)
    (hx : extract_query_atom P.query = some (raw, pred, args))
    (hb : canonical_rule_builder pred = some b)
    (hhas : has_rule_for_query P.rules raw = true) :
    ensure_canonical_query_rule P = P := by
  simp only [ensure_canonical_query_rule, hx, hb, hhas, if_true]

/-- C5 (corrected): for every program whose query atom uses one of the
five canonical-family predicates, `ensure_canonical_query_rule` appends
the canonical textbook rule (conclusion string-equal to the query atom)
exactly when no existing rule already concludes that atom *and the query's
argument count matches the canonical arity* (2 for `ContrattoValido`, 3
for `ResponsabilitaContrattuale`, 1 for `ContrattoAdesione`, 2 for the two
`Usucapione` predicates; with a mismatched arity the builder bails out and
nothing is appended, which the unamended claim misses); a second
application leaves the program unchanged, and after the injection exactly
one rule concludes the query atom. -/
theorem C5_canonical_rule_injection (p : LogicProgram) (raw pred : String)
    (args : List String)
    (hx : extract_query_atom p.query = some (raw, pred, args))
    (hfam : pred ∈ (["ContrattoValido", "ResponsabilitaContrattuale", "ContrattoAdesione",
      "UsucapioneOrdinaria", "UsucapioneAbbreviata"] : List String)) :
    ensure_canonical_query_rule (ensure_canonical_query_rule p) =
      ensure_canonical_query_rule p ∧
    (has_rule_for_query p.rules raw = false → args.length = c5_canonical_arity pred →
      ∃ rule : RuleR, rule.conclusion = raw ∧
        (ensure_canonical_query_rule p).rules = p.rules ++ [rule] ∧
        ((ensure_canonical_query_rule p).rules.filter
          (fun r => pyStrip r.conclusion = raw)).length = 1) ∧
    ((has_rule_for_query p.rules raw = true ∨ args.length ≠ c5_canonical_arity pred) →
      ensure_canonical_query_rule p = p) := by
  obtain ⟨b, hb⟩ : ∃ b, canonical_rule_builder pred = some b := by
    have h5 : pred = "ContrattoValido" ∨ pred = "ResponsabilitaContrattuale" ∨
        pred = "ContrattoAdesione" ∨ pred = "UsucapioneOrdinaria" ∨
        pred = "UsucapioneAbbreviata" := by simpa using hfam
    rcases h5 with rfl | rfl | rfl | rfl | rfl <;> exact ⟨_, rfl⟩
  have hrawfacts : pyStrip raw = raw ∧ raw ≠ "" := by
    cases hq : p.query with
    | none => rw [hq] at hx; exact absurd hx (by simp [extract_query_atom])
    | some q => rw [hq] at hx; exact extract_query_atom_strip hx
  obtain ⟨hstripraw, hrawne⟩ := hrawfacts
  obtain ⟨hbq, hbr, hbnone, hbsome⟩ := builder_facts hb p args
  by_cases hhas : has_rule_for_query p.rules raw = true
  · have hEp : ensure_canonical_query_rule p = p :=
      ensure_noop_of_has p raw pred args b hx hb hhas
    refine ⟨?_, ?_, fun _ => hEp⟩
    · rw [hEp]
      exact hEp
    · intro hfalse
      rw [hhas] at hfalse
      exact absurd hfalse (by simp)
  · have hhasf : has_rule_for_query p.rules raw = false := by simpa using hhas
    rcases hbp : b p args with ⟨p2, r2⟩
    rw [hbp] at hbq hbr hbnone hbsome
    simp only at hbq hbr hbnone hbsome
    by_cases harity : args.length = c5_canonical_arity pred
    · obtain ⟨rule, hrule⟩ : ∃ r, r2 = some r := by
        have := hbsome.mpr harity
        cases h2 : r2 with
        | none => rw [h2] at this; exact absurd this (by simp)
        | some r => exact ⟨r, rfl⟩
      subst hrule
      have hEp : ensure_canonical_query_rule p =
          { p2 with rules := p2.rules ++ [{ rule with conclusion := raw }] } := by
        simp only [ensure_canonical_query_rule, hx, hb, hhasf, Bool.false_eq_true, if_false,
          hbp, hrawne, ne_eq, not_false_iff, if_true, ite_not]
      have hfilter : (p.rules.filter (fun r => pyStrip r.conclusion = raw)) = [] := by
        rw [List.filter_eq_nil]
        intro a ha
        have := List.any_eq_false.mp hhasf a ha
        simpa using this
      refine ⟨?_, ?_, ?_⟩
      · -- idempotence: the second application sees the appended rule
        have hq2 : (ensure_canonical_query_rule p).query = p.query := by
          rw [hEp]
          exact hbq
        have hhas2 : has_rule_for_query (ensure_canonical_query_rule p).rules raw = true := by
          rw [hEp]
          simp only [has_rule_for_query, List.any_append, List.any_cons, List.any_nil]
          have : pyStrip raw = raw := hstripraw
          simp [this]
        have hx2 : extract_query_atom (ensure_canonical_query_rule p).query =
            some (raw, pred, args) := by rw [hq2]; exact hx
        exact ensure_noop_of_has _ raw pred args b hx2 hb hhas2
      · intro _ _
        refine ⟨{ rule with conclusion := raw }, rfl, ?_, ?_⟩
        · rw [hEp]
          simp [hbr]
        · rw [hEp]
          simp only [hbr, List.filter_append, hfilter]
          simp [hstripraw]
      · intro hcontra
        rcases hcontra with hcontra | hcontra
        · rw [hhasf] at hcontra
          exact absurd hcontra (by simp)
        · exact absurd harity hcontra
    · have hnone : r2 = none := by
        cases h2 : r2 with
        | none => rfl
        | some r =>
          rw [h2] at hbsome
          exact absurd (hbsome.mp (by simp)) harity
      subst hnone
      have hp2 : p2 = p := hbnone rfl
      have hEp : ensure_canonical_query_rule p = p := by
        simp only [ensure_canonical_query_rule, hx, hb, hhasf, Bool.false_eq_true, if_false, hbp]
        exact hp2
      refine ⟨?_, ?_, fun _ => hEp⟩
      · rw [hEp]
        exact hEp
      · intro _ hlen
        exact absurd hlen harity

/-- A program whose query uses the canonical predicate `ContrattoValido`
with three arguments instead of two. -/
def c5Program : LogicProgram := { dsl_version := "2.1", query := some "ContrattoValido(a, b, c)" }

set_option maxRecDepth 10000 in
/-- C5 counterexample: the claim's "appends … exactly when no existing
rule already concludes that atom" is false.  `c5Program` queries the
canonical-family atom `ContrattoValido(a, b, c)`, no rule concludes it,
yet one application of `ensure_canonical_query_rule` appends nothing (the
builder rejects the three-argument form). -/
theorem C5_exactly_when_counterexample :
    extract_query_atom c5Program.query =
      some ("ContrattoValido(a, b, c)", "ContrattoValido", ["a", "b", "c"]) ∧
    has_rule_for_query c5Program.rules "ContrattoValido(a, b, c)" = false ∧
    ensure_canonical_query_rule c5Program = c5Program ∧
    (ensure_canonical_query_rule c5Program).rules = [] := by
  decide

/-- A program whose query is the well-formed canonical atom
`ContrattoValido(x, c)` with no rule concluding it. -/
def c5Good : LogicProgram := { dsl_version := "2.1", query := some "ContrattoValido(x, c)" }

set_option maxRecDepth 10000 in
/-- C5 witness: on `c5Good` the injection appends exactly one rule
concluding the query atom and is idempotent. -/
theorem C5_canonical_rule_injection_witness :
    ensure_canonical_query_rule (ensure_canonical_query_rule c5Good) =
      ensure_canonical_query_rule c5Good ∧
    ∃ rule : RuleR, rule.conclusion = "ContrattoValido(x, c)" ∧
      (ensure_canonical_query_rule c5Good).rules = c5Good.rules ++ [rule] ∧
      ((ensure_canonical_query_rule c5Good).rules.filter
        (fun r => pyStrip r.conclusion = "ContrattoValido(x, c)")).length = 1 := by
  have h := C5_canonical_rule_injection c5Good "ContrattoValido(x, c)" "ContrattoValido"
    ["x", "c"] (by decide) (by decide)
  exact ⟨h.1, h.2.1 (by decide) (by decide)⟩

/-- "`a` is declared as a constant of the canonical sort of `s`" - the
shape fact synthesis guarantees for each argument position. -/
def c6_const_decl (p2 : LogicProgram) (a s : String) : Prop :=
  (a, ConstMeta.mk (some (resolve_sort_alias (some (if s = "" then "Entity" else s))))) ∈
    p2.constants

/-- `_ensure_constant_for_sort` preserves axioms and predicates, only
appends to `constants`, and returns a name declared with the resolved
sort. -/
lemma ensure_constant_for_sort_spec (q : LogicProgram) (sortName : Option String)
    (position : Nat) :
    (ensure_constant_for_sort q sortName position).1.axioms = q.axioms ∧
    (ensure_constant_for_sort q sortName position).1.predicates = q.predicates ∧
    q.constants <+: (ensure_constant_for_sort q sortName position).1.constants ∧
    ((ensure_constant_for_sort q sortName position).2,
      ConstMeta.mk (some (resolve_sort_alias sortName))) ∈
      (ensure_constant_for_sort q sortName position).1.constants := by
  simp only [ensure_constant_for_sort]
  cases hf : q.constants.find? (fun c => c.2.sort = some (resolve_sort_alias sortName)) with
  | some c =>
    refine ⟨rfl, rfl, List.prefix_refl _, ?_⟩
    have hm := List.mem_of_find?_eq_some hf
    have hp := List.find?_some hf
    have hs : c.2.sort = some (resolve_sort_alias sortName) := by simpa using hp
    have hc : c = (c.1, ConstMeta.mk (some (resolve_sort_alias sortName))) := by
      cases c with
      | mk c1 c2 =>
        cases c2 with
        | mk s2 =>
          simp only at hs
          simp [hs]
    rw [← hc]
    exact hm
  | none =>
    refine ⟨rfl, rfl, ?_, ?_⟩
    · exact List.prefix_append _ _
    · simp

/-- The argument loop of fact synthesis: axioms/predicates untouched,
constants only appended, and the produced arguments are declared constants
of the resolved positional sorts (one per position). -/
lemma synth_arg_fold_spec (sorts : List String) : ∀ (n : Nat) (q : LogicProgram)
    (args0 : List String),
    ((sorts.enumFrom n).foldl synth_arg_step (q, args0)).1.axioms = q.axioms ∧
    ((sorts.enumFrom n).foldl synth_arg_step (q, args0)).1.predicates = q.predicates ∧
    q.constants <+: ((sorts.enumFrom n).foldl synth_arg_step (q, args0)).1.constants ∧
    ∃ newArgs, ((sorts.enumFrom n).foldl synth_arg_step (q, args0)).2 = args0 ++ newArgs ∧
      List.Forall₂ (c6_const_decl ((sorts.enumFrom n).foldl synth_arg_step (q, args0)).1)
        newArgs sorts := by
  induction sorts with
  | nil =>
    intro n q args0
    exact ⟨rfl, rfl, List.prefix_refl _, [], by simp, List.Forall₂.nil⟩
  | cons s rest ih =>
    intro n q args0
    rw [List.enumFrom_cons]
    simp only [List.foldl_cons]
    have hstep : synth_arg_step (q, args0) (n, s) =
        ((ensure_constant_for_sort q (some (if s = "" then "Entity" else s)) n).1,
         args0 ++ [(ensure_constant_for_sort q (some (if s = "" then "Entity" else s)) n).2]) := by
      simp only [synth_arg_step]
    rw [hstep]
    obtain ⟨he1, he2, he3, he4⟩ :=
      ensure_constant_for_sort_spec q (some (if s = "" then "Entity" else s)) n
    obtain ⟨ih1, ih2, ih3, newArgs, ihargs, ihforall⟩ := ih (n + 1)
      (ensure_constant_for_sort q (some (if s = "" then "Entity" else s)) n).1
      (args0 ++ [(ensure_constant_for_sort q (some (if s = "" then "Entity" else s)) n).2])
    refine ⟨ih1.trans he1, ih2.trans he2, he3.trans ih3, ?_⟩
    refine ⟨(ensure_constant_for_sort q (some (if s = "" then "Entity" else s)) n).2 :: newArgs,
      ?_, ?_⟩
    · rw [ihargs]
      simp
    · rw [List.forall₂_cons]
      constructor
      · exact ih3.subset he4
      · exact ihforall

/-- A step on a missing link whose canonical name is not declared is a
no-op. -/
lemma synth_step_none (pre : List (String × PredMeta)) (q : LogicProgram)
    (existing : List String) (added : Bool) (raw : String)
    (h : pre.lookup (c6_canonical raw) = none) :
    synth_step pre (q, existing, added) raw = (q, existing, added) := by
  simp [synth_step, h]

/-- A step on a declared missing link: run the argument loop, then either
skip (formula already tracked) or append the axiom. -/
lemma synth_step_some (pre : List (String × PredMeta)) (q : LogicProgram)
    (existing : List String) (added : Bool) (raw : String) (spec : PredMeta)
    (h : pre.lookup (c6_canonical raw) = some spec) :
    synth_step pre (q, existing, added) raw =
      (if c6_formula (c6_canonical raw)
            (spec.sorts.enum.foldl synth_arg_step ((q, []) : LogicProgram × List String)).2 ∈
          existing then
        ((spec.sorts.enum.foldl synth_arg_step ((q, []) : LogicProgram × List String)).1,
          existing, added)
      else
        ({ (spec.sorts.enum.foldl synth_arg_step ((q, []) : LogicProgram × List String)).1 with
            axioms :=
              (spec.sorts.enum.foldl synth_arg_step
                ((q, []) : LogicProgram × List String)).1.axioms ++
              [⟨c6_formula (c6_canonical raw)
                (spec.sorts.enum.foldl synth_arg_step
                  ((q, []) : LogicProgram × List String)).2⟩] },
          existing ++ [c6_formula (c6_canonical raw)
            (spec.sorts.enum.foldl synth_arg_step
              ((q, []) : LogicProgram × List String)).2], true)) := by
  simp only [synth_step, h]

/-- Shape of every axiom appended by `_synthesize_missing_facts`: the atom
of a declared missing predicate, one declared constant of the resolved
sort per argument position. -/
def c6_new_axiom_shape (pre : List (String × PredMeta)) (missing : List String)
    (pf : LogicProgram) (ax : AxiomR) : Prop :=
  ∃ raw ∈ missing, ∃ spec, pre.lookup (c6_canonical raw) = some spec ∧
    ∃ args, ax.formula = c6_formula (c6_canonical raw) args ∧
      List.Forall₂ (c6_const_decl pf) args spec.sorts

/-- Coverage after `_synthesize_missing_facts`: if the canonical name of
`raw` is declared, some tracked formula asserts its atom over declared
constants. -/
def c6_covered (pre : List (String × PredMeta)) (pf : LogicProgram)
    (tracked : List String) (raw : String) : Prop :=
  ∀ spec, pre.lookup (c6_canonical raw) = some spec →
    ∃ f ∈ tracked, ∃ args, f = c6_formula (c6_canonical raw) args ∧
      List.Forall₂ (c6_const_decl pf) args spec.sorts

lemma c6_new_axiom_shape_mono {pre : List (String × PredMeta)}
    {missing missing2 : List String} {pf : LogicProgram} {ax : AxiomR}
    (h : missing ⊆ missing2) (hs : c6_new_axiom_shape pre missing pf ax) :
    c6_new_axiom_shape pre missing2 pf ax := by
  obtain ⟨r, hr, rest⟩ := hs
  exact ⟨r, h hr, rest⟩

lemma forall2_const_decl_mono {p p2 : LogicProgram} (h : p.constants ⊆ p2.constants)
    {args sorts : List String} (hf : List.Forall₂ (c6_const_decl p) args sorts) :
    List.Forall₂ (c6_const_decl p2) args sorts :=
  hf.imp (fun _ _ hd => h hd)

/-- Invariant of the `for raw_name in missing_links` fold: predicates
untouched, constants only extended, axioms only appended with shaped new
axioms tracked one-to-one in the `existing_formulas` accumulator, the
`added` flag raised exactly by a non-trivial append, and every declared
missing link covered by a tracked asserting formula. -/
lemma synth_fold_spec (pre : List (String × PredMeta)) (missing : List String) :
    ∀ (q : LogicProgram) (existing : List String) (added : Bool),
    (missing.foldl (synth_step pre) (q, existing, added)).1.predicates = q.predicates ∧
    q.constants <+: (missing.foldl (synth_step pre) (q, existing, added)).1.constants ∧
    ∃ newAx,
      (missing.foldl (synth_step pre) (q, existing, added)).1.axioms = q.axioms ++ newAx ∧
      (missing.foldl (synth_step pre) (q, existing, added)).2.1 =
        existing ++ newAx.map AxiomR.formula ∧
      ((missing.foldl (synth_step pre) (q, existing, added)).2.2 = true ↔
        (added = true ∨ newAx ≠ [])) ∧
      (∀ ax ∈ newAx, c6_new_axiom_shape pre missing
        (missing.foldl (synth_step pre) (q, existing, added)).1 ax) ∧
      (∀ raw ∈ missing, c6_covered pre
        (missing.foldl (synth_step pre) (q, existing, added)).1
        (missing.foldl (synth_step pre) (q, existing, added)).2.1 raw) := by
  induction missing with
  | nil =>
    intro q existing added
    exact ⟨rfl, List.prefix_refl _, [], by simp, by simp, by simp, by simp, by simp⟩
  | cons raw rest ih =>
    intro q existing added
    simp only [List.foldl_cons]
    cases hlook : pre.lookup (c6_canonical raw) with
    | none =>
      rw [synth_step_none pre q existing added raw hlook]
      obtain ⟨ihP, ihC, newAx, ihAx, ihEx, ihAdd, ihShape, ihCov⟩ := ih q existing added
      refine ⟨ihP, ihC, newAx, ihAx, ihEx, ihAdd, ?_, ?_⟩
      · intro ax hax
        exact c6_new_axiom_shape_mono (List.subset_cons_self _ _) (ihShape ax hax)
      · intro r hr
        rcases List.mem_cons.mp hr with h | h
        · subst h
          intro spec hspec
          rw [hlook] at hspec
          exact absurd hspec (by simp)
        · exact ihCov r h
    | some spec =>
      rw [synth_step_some pre q existing added raw spec hlook]
      have AF := synth_arg_fold_spec spec.sorts 0 q []
      rw [← List.enum_eq_enumFrom] at AF
      set F := spec.sorts.enum.foldl synth_arg_step ((q, []) : LogicProgram × List String)
        with hF
      obtain ⟨af1, af2, af3, newArgs, afargs, afforall⟩ := AF
      rw [List.nil_append] at afargs
      by_cases hmem : c6_formula (c6_canonical raw) F.2 ∈ existing
      · rw [if_pos hmem]
        obtain ⟨ihP, ihC, newAx, ihAx, ihEx, ihAdd, ihShape, ihCov⟩ := ih F.1 existing added
        refine ⟨ihP.trans af2, af3.trans ihC, newAx, by rw [ihAx, af1], ihEx, ihAdd, ?_, ?_⟩
        · intro ax hax
          exact c6_new_axiom_shape_mono (List.subset_cons_self _ _) (ihShape ax hax)
        · intro r hr
          rcases List.mem_cons.mp hr with h | h
          · subst h
            intro spec2 hspec2
            rw [hlook] at hspec2
            injection hspec2 with hsp
            subst hsp
            refine ⟨c6_formula (c6_canonical r) F.2, ?_, F.2, rfl, ?_⟩
            · rw [ihEx]
              exact List.mem_append_left _ hmem
            · rw [afargs]
              exact forall2_const_decl_mono ihC.subset afforall
          · exact ihCov r h
      · rw [if_neg hmem]
        obtain ⟨ihP, ihC, newAx, ihAx, ihEx, ihAdd, ihShape, ihCov⟩ :=
          ih { F.1 with axioms := F.1.axioms ++ [⟨c6_formula (c6_canonical raw) F.2⟩] }
            (existing ++ [c6_formula (c6_canonical raw) F.2]) true
        refine ⟨ihP.trans af2, af3.trans ihC,
          ⟨c6_formula (c6_canonical raw) F.2⟩ :: newAx, ?_, ?_, ?_, ?_, ?_⟩
        · rw [ihAx]
          simp [af1]
        · rw [ihEx]
          simp
        · simp only [ihAdd]
          simp
        · intro ax hax
          rcases List.mem_cons.mp hax with h | h
          · subst h
            refine ⟨raw, List.mem_cons_self _ _, spec, hlook, F.2, rfl, ?_⟩
            rw [← afargs] at afforall
            exact forall2_const_decl_mono (fun x hx => ihC.subset hx) afforall
          · exact c6_new_axiom_shape_mono (List.subset_cons_self _ _) (ihShape ax h)
        · intro r hr
          rcases List.mem_cons.mp hr with h | h
          · subst h
            intro spec2 hspec2
            rw [hlook] at hspec2
            injection hspec2 with hsp
            subst hsp
            refine ⟨c6_formula (c6_canonical r) F.2, ?_, F.2, rfl, ?_⟩
            · rw [ihEx]
              exact List.mem_append_left _ (List.mem_append_right _ (List.mem_singleton.mpr rfl))
            · rw [← afargs] at afforall
              exact forall2_const_decl_mono (fun x hx => ihC.subset hx) afforall
          · exact ihCov r h

/-- Characterisation of `_synthesize_missing_facts` on a non-empty
missing-links list: predicates untouched, constants only extended, new
axioms appended (the `added` flag true exactly when at least one was),
every new axiom the atom of a declared missing predicate with declared
constants as arguments, and every declared missing predicate asserted by
some axiom of the result (pre-existing, by its stripped formula, or newly
appended). -/
lemma synthesize_missing_facts_spec (p : LogicProgram) (missing : List String)
    (hne : missing ≠ []) :
    (synthesize_missing_facts p missing).1.predicates = p.predicates ∧
    p.constants <+: (synthesize_missing_facts p missing).1.constants ∧
    ∃ newAx, (synthesize_missing_facts p missing).1.axioms = p.axioms ++ newAx ∧
      ((synthesize_missing_facts p missing).2 = true ↔ newAx ≠ []) ∧
      (∀ ax ∈ newAx, c6_new_axiom_shape p.predicates missing
        (synthesize_missing_facts p missing).1 ax) ∧
      (∀ raw ∈ missing, ∀ spec, p.predicates.lookup (c6_canonical raw) = some spec →
        ∃ ax ∈ (synthesize_missing_facts p missing).1.axioms, ∃ args,
          (pyStrip ax.formula = c6_formula (c6_canonical raw) args ∨
            ax.formula = c6_formula (c6_canonical raw) args) ∧
          List.Forall₂ (c6_const_decl (synthesize_missing_facts p missing).1)
            args spec.sorts) := by
  have hsy : synthesize_missing_facts p missing =
      ((missing.foldl (synth_step p.predicates)
        (p, (p.axioms.filter fun a => a.formula ≠ "").map fun a => pyStrip a.formula,
          false)).1,
       (missing.foldl (synth_step p.predicates)
        (p, (p.axioms.filter fun a => a.formula ≠ "").map fun a => pyStrip a.formula,
          false)).2.2) := by
    rw [synthesize_missing_facts, if_neg hne]
  obtain ⟨hP, hC, newAx, hAx, hEx, hAdd, hShape, hCov⟩ :=
    synth_fold_spec p.predicates missing p
      ((p.axioms.filter fun a => a.formula ≠ "").map fun a => pyStrip a.formula) false
  rw [hsy]
  refine ⟨hP, hC, newAx, hAx, ?_, hShape, ?_⟩
  · rw [hAdd]
    simp
  · intro raw hraw spec hspec
    obtain ⟨f, hf, args, hfeq, hforall⟩ := hCov raw hraw spec hspec
    rw [hEx] at hf
    rcases List.mem_append.mp hf with h | h
    · obtain ⟨a, ha, hstr⟩ := List.mem_map.mp h
      obtain ⟨ha2, -⟩ := List.mem_filter.mp ha
      refine ⟨a, ?_, args, Or.inl (hstr.trans hfeq), hforall⟩
      rw [hAx]
      exact List.mem_append_left _ ha2
    · obtain ⟨a, ha, hstr⟩ := List.mem_map.mp h
      refine ⟨a, ?_, args, Or.inr (hstr.trans hfeq), hforall⟩
      rw [hAx]
      exact List.mem_append_right _ ha

/-- Gate of `_evaluate_with_fact_synthesis`: with no missing links or a
status other than `consistent_no_entailment` the loop returns the feedback
at once, running no synthesis round. -/
lemma evaluate_gate (solverOf : LogicProgram → SolverState × Option String)
    (attempts : Nat) (p : LogicProgram)
    (h : (build_logic_feedback (solverOf p).1 p (solverOf p).2).missing_links = [] ∨
      (build_logic_feedback (solverOf p).1 p (solverOf p).2).status ≠
        "consistent_no_entailment") :
    evaluate_with_fact_synthesis solverOf attempts p =
      (build_logic_feedback (solverOf p).1 p (solverOf p).2, p, 0) := by
  rw [evaluate_with_fact_synthesis.eq_def]
  rcases hsp : solverOf p with ⟨solver, query⟩
  rw [hsp] at h
  dsimp only at h ⊢
  rcases h with h | h
  · rw [if_pos (Or.inl h)]
  · rw [if_pos (Or.inr (Or.inl h))]

/-- No-progress stop of `_evaluate_with_fact_synthesis`: when a round
synthesises nothing new, the loop returns after that single round. -/
lemma evaluate_noadd (solverOf : LogicProgram → SolverState × Option String)
    (attempts : Nat) (p : LogicProgram)
    (hlt : attempts < FACT_SYNTHESIS_MAX_ROUNDS)
    (hml : (build_logic_feedback (solverOf p).1 p (solverOf p).2).missing_links ≠ [])
    (hst : (build_logic_feedback (solverOf p).1 p (solverOf p).2).status =
      "consistent_no_entailment")
    (hadd : (synthesize_missing_facts p
      (build_logic_feedback (solverOf p).1 p (solverOf p).2).missing_links).2 = false) :
    evaluate_with_fact_synthesis solverOf attempts p =
      (build_logic_feedback (solverOf p).1 p (solverOf p).2,
       (synthesize_missing_facts p
         (build_logic_feedback (solverOf p).1 p (solverOf p).2).missing_links).1, 1) := by
  rw [evaluate_with_fact_synthesis.eq_def]
  rcases hsp : solverOf p with ⟨solver, query⟩
  rw [hsp] at hml hst hadd
  dsimp only at hml hst hadd ⊢
  rw [if_neg (by
    simp only [not_or, not_le]
    exact ⟨hml, fun hn => hn hst, hlt⟩)]
  rcases hsy : synthesize_missing_facts p
      (build_logic_feedback solver p query).missing_links with ⟨p2, added⟩
  rw [hsy] at hadd
  dsimp only at hadd ⊢
  subst hadd
  simp

/-- The synthesis-round counter never exceeds the remaining budget
`FACT_SYNTHESIS_MAX_ROUNDS - attempts`. -/
lemma evaluate_rounds_le (solverOf : LogicProgram → SolverState × Option String) :
    ∀ (fuel attempts : Nat) (p : LogicProgram),
    FACT_SYNTHESIS_MAX_ROUNDS - attempts ≤ fuel →
    (evaluate_with_fact_synthesis solverOf attempts p).2.2 ≤
      FACT_SYNTHESIS_MAX_ROUNDS - attempts := by
  intro fuel
  induction fuel with
  | zero =>
    intro attempts p h
    simp only [FACT_SYNTHESIS_MAX_ROUNDS] at h ⊢
    have h3 : attempts ≥ 3 := by omega
    rw [evaluate_with_fact_synthesis.eq_def]
    rcases hsp : solverOf p with ⟨solver, query⟩
    simp only [FACT_SYNTHESIS_MAX_ROUNDS]
    rw [if_pos (Or.inr (Or.inr h3))]
    simp
  | succ n ih =>
    intro attempts p h
    rw [evaluate_with_fact_synthesis.eq_def]
    rcases hsp : solverOf p with ⟨solver, query⟩
    simp only
    by_cases hguard : (build_logic_feedback solver p query).missing_links = [] ∨
        (build_logic_feedback solver p query).status ≠ "consistent_no_entailment" ∨
        attempts ≥ FACT_SYNTHESIS_MAX_ROUNDS
    · rw [if_pos hguard]
      simp
    · rw [if_neg hguard]
      simp only [not_or, not_le, FACT_SYNTHESIS_MAX_ROUNDS] at hguard
      obtain ⟨-, -, hlt⟩ := hguard
      rcases hsy : synthesize_missing_facts p
          (build_logic_feedback solver p query).missing_links with ⟨p2, added⟩
      simp only
      cases added with
      | false =>
        simp only [Bool.not_false, if_true, FACT_SYNTHESIS_MAX_ROUNDS]
        omega
      | true =>
        simp only [Bool.not_true, Bool.false_eq_true, if_false]
        rcases hr : evaluate_with_fact_synthesis solverOf (attempts + 1) p2 with ⟨fb2, p3, k⟩
        have hk := ih (attempts + 1) p2 (by
          simp only [FACT_SYNTHESIS_MAX_ROUNDS] at h ⊢
          omega)
        rw [hr] at hk
        simp only [FACT_SYNTHESIS_MAX_ROUNDS] at hk ⊢
        omega

/-- C6: fact synthesis is bounded.  `_evaluate_with_fact_synthesis` performs
at most `FACT_SYNTHESIS_MAX_ROUNDS = 3` synthesis rounds; it runs a round
only while the feedback status is `consistent_no_entailment` with non-empty
`missing_links` (otherwise it returns at once with no round run), and it
stops right after a round that adds no new axiom; each round appends, for
every missing predicate declared in the program, one axiom asserting its
atom with one declared constant of the resolved sort per argument position
(reused or freshly created), unless an identical formula is already
asserted, in which case that existing assertion covers the predicate. -/
theorem C6_fact_synthesis_bounded :
    FACT_SYNTHESIS_MAX_ROUNDS = 3 ∧
    (∀ (solverOf : LogicProgram → SolverState × Option String) (attempts : Nat)
      (p : LogicProgram),
      (evaluate_with_fact_synthesis solverOf attempts p).2.2 ≤ FACT_SYNTHESIS_MAX_ROUNDS) ∧
    (∀ (solverOf : LogicProgram → SolverState × Option String) (attempts : Nat)
      (p : LogicProgram),
      (build_logic_feedback (solverOf p).1 p (solverOf p).2).missing_links = [] ∨
      (build_logic_feedback (solverOf p).1 p (solverOf p).2).status ≠
        "consistent_no_entailment" →
      evaluate_with_fact_synthesis solverOf attempts p =
        (build_logic_feedback (solverOf p).1 p (solverOf p).2, p, 0)) ∧
    (∀ (solverOf : LogicProgram → SolverState × Option String) (attempts : Nat)
      (p : LogicProgram),
      attempts < FACT_SYNTHESIS_MAX_ROUNDS →
      (build_logic_feedback (solverOf p).1 p (solverOf p).2).missing_links ≠ [] →
      (build_logic_feedback (solverOf p).1 p (solverOf p).2).status =
        "consistent_no_entailment" →
      (synthesize_missing_facts p
        (build_logic_feedback (solverOf p).1 p (solverOf p).2).missing_links).2 = false →
      evaluate_with_fact_synthesis solverOf attempts p =
        (build_logic_feedback (solverOf p).1 p (solverOf p).2,
         (synthesize_missing_facts p
           (build_logic_feedback (solverOf p).1 p (solverOf p).2).missing_links).1, 1)) ∧
    (∀ (p : LogicProgram) (missing : List String), missing ≠ [] →
      (synthesize_missing_facts p missing).1.predicates = p.predicates ∧
      p.constants <+: (synthesize_missing_facts p missing).1.constants ∧
      ∃ newAx, (synthesize_missing_facts p missing).1.axioms = p.axioms ++ newAx ∧
        ((synthesize_missing_facts p missing).2 = true ↔ newAx ≠ []) ∧
        (∀ ax ∈ newAx, c6_new_axiom_shape p.predicates missing
          (synthesize_missing_facts p missing).1 ax) ∧
        (∀ raw ∈ missing, ∀ spec, p.predicates.lookup (c6_canonical raw) = some spec →
          ∃ ax ∈ (synthesize_missing_facts p missing).1.axioms, ∃ args,
            (pyStrip ax.formula = c6_formula (c6_canonical raw) args ∨
              ax.formula = c6_formula (c6_canonical raw) args) ∧
            List.Forall₂ (c6_const_decl (synthesize_missing_facts p missing).1)
              args spec.sorts)) := by
  refine ⟨rfl, ?_, ?_, ?_, ?_⟩
  · intro solverOf attempts p
    exact le_trans (evaluate_rounds_le solverOf FACT_SYNTHESIS_MAX_ROUNDS attempts p
      (Nat.sub_le _ _)) (Nat.sub_le _ _)
  · intro solverOf attempts p h
    exact evaluate_gate solverOf attempts p h
  · intro solverOf attempts p h1 h2 h3 h4
    exact evaluate_noadd solverOf attempts p h1 h2 h3 h4
  · intro p missing hne
    exact synthesize_missing_facts_spec p missing hne

/-- A one-predicate program with query `Q` and no axioms. -/
def c6p : LogicProgram :=
  { dsl_version := "2.1", sorts := [("Entity", ⟨some "primitive"⟩)], constants := [],
    predicates := [("Q", ⟨some 1, ["Entity"]⟩)], facts := [], axioms := [], rules := [],
    query := some "Q" }

/-- An oracle whose solver is satisfiable and never entails anything. -/
def c6solver : LogicProgram → SolverState × Option String :=
  fun _ => (⟨CheckResult.sat, fun _ => false, [], []⟩, some "Q")

/-- An oracle whose solver is unsatisfiable. -/
def c6solverU : LogicProgram → SolverState × Option String :=
  fun _ => (⟨CheckResult.unsat, fun _ => false, [], []⟩, some "Q")

/-- C6 witness: the round bound at a concrete oracle and program, the gate
at an inconsistent oracle (status is not `consistent_no_entailment`, so no
round runs), and the synthesis characterisation at the concrete missing
list `["Q"]`. -/
theorem C6_fact_synthesis_bounded_witness :
    (evaluate_with_fact_synthesis c6solver 0 c6p).2.2 ≤ FACT_SYNTHESIS_MAX_ROUNDS ∧
    evaluate_with_fact_synthesis c6solverU 0 c6p =
      (build_logic_feedback (c6solverU c6p).1 c6p (c6solverU c6p).2, c6p, 0) ∧
    (["Q"] : List String) ≠ [] ∧
    (synthesize_missing_facts c6p ["Q"]).1.predicates = c6p.predicates := by
  refine ⟨C6_fact_synthesis_bounded.2.1 c6solver 0 c6p,
    C6_fact_synthesis_bounded.2.2.1 c6solverU 0 c6p (Or.inr (by decide)),
    by decide,
    (C6_fact_synthesis_bounded.2.2.2.2 c6p ["Q"] (by decide)).1⟩

/-- The `base` context a retry builds on
(`history_summary or "Nessuna iterazione precedente: primo refinement."`). -/
def c7_base (historySummary : Option String) : String :=
  match historySummary with
  | some h => if h ≠ "" then h else "Nessuna iterazione precedente: primo refinement."
  | none => "Nessuna iterazione precedente: primo refinement."

/-- The retry hint for a non-empty missing-links list is never empty. -/
lemma build_retry_hint_ne (ml : List String) (h : ml ≠ []) : build_retry_hint ml ≠ "" := by
  rw [build_retry_hint, if_neg h]
  intro hc
  have hd := congrArg String.data hc
  rw [String.data_append, String.data_append] at hd
  have h1 := List.append_eq_nil.mp hd
  have h2 := List.append_eq_nil.mp h1.1
  exact absurd h2.1 (by decide)

/-- One iteration of the refinement loop, with the inline base context
named. -/
lemma refinement_run_go_succ (llm : Option String → Except Unit LLMOutputV2)
    (p : LogicProgram) (ml : List String) (pa hs : Option String) (n : Nat)
    (rh : String) (lr : Option LLMOutputV2) (calls : List (Option String)) :
    refinement_run_go llm p ml pa hs (n + 1) rh lr calls =
      (let rh2 := if rh ≠ "" then some (c7_base hs ++ "\n\n" ++ rh) else hs
       match llm rh2 with
       | .error _ => (fallback_output pa p, calls ++ [rh2])
       | .ok result =>
         if covers_missing_links result.logic_program ml then (result, calls ++ [rh2])
         else refinement_run_go llm p ml pa hs n (build_retry_hint ml) (some result)
           (calls ++ [rh2])) := rfl

/-- Exhausted budget: the loop returns the last recorded result. -/
lemma refinement_run_go_zero (llm : Option String → Except Unit LLMOutputV2)
    (p : LogicProgram) (ml : List String) (pa hs : Option String)
    (rh : String) (r : LLMOutputV2) (calls : List (Option String)) :
    refinement_run_go llm p ml pa hs 0 rh (some r) calls = (r, calls) := rfl

/-- The loop makes at most `n` further LLM calls with budget `n`. -/
lemma refinement_run_go_calls_le (llm : Option String → Except Unit LLMOutputV2)
    (p : LogicProgram) (ml : List String) (pa hs : Option String) :
    ∀ (n : Nat) (rh : String) (lr : Option LLMOutputV2) (calls : List (Option String)),
    (refinement_run_go llm p ml pa hs n rh lr calls).2.length ≤ calls.length + n := by
  intro n
  induction n with
  | zero =>
    intro rh lr calls
    have hz : (refinement_run_go llm p ml pa hs 0 rh lr calls).2 = calls := rfl
    rw [hz]
    omega
  | succ k ih =>
    intro rh lr calls
    rw [refinement_run_go_succ]
    simp only
    split
    · simp
    · split
      · simp
      · refine le_trans (ih _ _ _) ?_
        simp only [List.length_append, List.length_singleton]
        omega

/-- C7 (amended): `RefinementRuntime.run` makes at most
`MAX_REFINEMENT_ATTEMPTS = 2` LLM calls per invocation; the first call
uses the given history summary unchanged; a covering result is returned
at once; otherwise the call is retried once with the machine-formatted
`ATTENZIONE` hint appended after the base history context
(`base ++ "\n\n" ++ hint`); the second result is returned whether or not
it covers the missing links - on exhaustion the runtime returns the last
LLM result, not the previous state; a raised exception yields the
deterministic fallback output. -/
theorem C7_refinement_attempts :
    MAX_REFINEMENT_ATTEMPTS = 2 ∧
    (∀ (llm : Option String → Except Unit LLMOutputV2) (p : LogicProgram)
      (ml : List String) (pa hs : Option String),
      (refinement_run llm p ml pa hs).2.length ≤ MAX_REFINEMENT_ATTEMPTS) ∧
    (∀ (llm : Option String → Except Unit LLMOutputV2) (p : LogicProgram)
      (ml : List String) (pa hs : Option String),
      (llm hs = .error () →
        refinement_run llm p ml pa hs = (fallback_output pa p, [hs])) ∧
      (∀ r, llm hs = .ok r → covers_missing_links r.logic_program ml = true →
        refinement_run llm p ml pa hs = (r, [hs])) ∧
      (∀ r, llm hs = .ok r → covers_missing_links r.logic_program ml = false →
        (llm (some (c7_base hs ++ "\n\n" ++ build_retry_hint ml)) = .error () →
          refinement_run llm p ml pa hs =
            (fallback_output pa p,
             [hs, some (c7_base hs ++ "\n\n" ++ build_retry_hint ml)])) ∧
        (∀ r2, llm (some (c7_base hs ++ "\n\n" ++ build_retry_hint ml)) = .ok r2 →
          refinement_run llm p ml pa hs =
            (r2, [hs, some (c7_base hs ++ "\n\n" ++ build_retry_hint ml)])))) := by
  refine ⟨rfl, ?_, ?_⟩
  · intro llm p ml pa hs
    have h := refinement_run_go_calls_le llm p ml pa hs MAX_REFINEMENT_ATTEMPTS "" none []
    rw [refinement_run]
    exact le_trans h (by simp)
  · intro llm p ml pa hs
    have e2 : refinement_run llm p ml pa hs =
        refinement_run_go llm p ml pa hs (1 + 1) "" none [] := rfl
    have hgo1 := refinement_run_go_succ llm p ml pa hs 1 "" none []
    simp only [ne_eq, not_true_eq_false, if_false, List.nil_append] at hgo1
    refine ⟨?_, ?_, ?_⟩
    · intro herr
      rw [e2, hgo1, herr]
    · intro r hok hcov
      rw [e2, hgo1, hok]
      simp only [hcov, if_true]
    · intro r hok hcov
      have hml : ml ≠ [] := by
        intro hnil
        rw [hnil, covers_missing_links] at hcov
        simp at hcov
      have hgo2 := refinement_run_go_succ llm p ml pa hs 0 (build_retry_hint ml) (some r) [hs]
      rw [if_pos (build_retry_hint_ne ml hml)] at hgo2
      have hgo2b : refinement_run_go llm p ml pa hs 1 (build_retry_hint ml) (some r) [hs] =
          (match llm (some (c7_base hs ++ "\n\n" ++ build_retry_hint ml)) with
           | .error _ => (fallback_output pa p,
               [hs] ++ [some (c7_base hs ++ "\n\n" ++ build_retry_hint ml)])
           | .ok result =>
             if covers_missing_links result.logic_program ml then
               (result, [hs] ++ [some (c7_base hs ++ "\n\n" ++ build_retry_hint ml)])
             else refinement_run_go llm p ml pa hs 0 (build_retry_hint ml) (some result)
               ([hs] ++ [some (c7_base hs ++ "\n\n" ++ build_retry_hint ml)])) := hgo2
      constructor
      · intro herr2
        rw [e2, hgo1, hok]
        simp only [hcov, Bool.false_eq_true, if_false]
        rw [hgo2b, herr2]
        rfl
      · intro r2 hok2
        rw [e2, hgo1, hok]
        simp only [hcov, Bool.false_eq_true, if_false]
        rw [hgo2b, hok2]
        cases hcv2 : covers_missing_links r2.logic_program ml with
        | true => simp [hcv2]
        | false => simp [hcv2, refinement_run_go_zero]

/-- A refined program that nowhere mentions `ContrattoValido(`. -/
def c7prog : LogicProgram :=
  { dsl_version := "2.1", sorts := [], constants := [], predicates := [], facts := [],
    axioms := [⟨"Mora(d)"⟩], rules := [], query := some "Mora(d)" }

/-- A non-covering LLM output returned on every attempt. -/
def c7BadOut : LLMOutputV2 := ⟨"risposta senza copertura", c7prog, none⟩

/-- An oracle that always returns `c7BadOut`. -/
def c7llm : Option String → Except Unit LLMOutputV2 := fun _ => .ok c7BadOut

/-- A covering LLM output (it mentions `ContrattoValido(`). -/
def c7GoodOut : LLMOutputV2 :=
  ⟨"ok", { dsl_version := "2.1", axioms := [⟨"ContrattoValido(d, c)"⟩] }, none⟩

/-- An oracle that always returns `c7GoodOut`. -/
def c7llmGood : Option String → Except Unit LLMOutputV2 := fun _ => .ok c7GoodOut

/-- C7 counterexample: with an LLM that twice returns a program not
covering the missing link, `run` returns the LAST LLM output - not the
previous state or fallback - and the second call receives the retry hint
APPENDED to the history context after the base (`"HIST\n\n" ++ hint`),
not prepended. -/
theorem C7_previous_state_counterexample :
    (refinement_run c7llm c7prog ["ContrattoValido"] (some "prev") (some "HIST")).1 =
      c7BadOut ∧
    c7BadOut ≠ fallback_output (some "prev") c7prog ∧
    (refinement_run c7llm c7prog ["ContrattoValido"] (some "prev") (some "HIST")).2 =
      [some "HIST",
       some ("HIST\n\nATTENZIONE: aggiungi fatti o assiomi per ciascun predicato in " ++
         "missing_links (ContrattoValido) prima di restituire l\x27output.")] := by
  refine ⟨by decide, by decide, by decide⟩

/-- C7 witness: the call bound, the covering first attempt, and the
exhaustion path at concrete oracles. -/
theorem C7_refinement_attempts_witness :
    (refinement_run c7llmGood c7prog ["ContrattoValido"] (some "prev")
      (some "HIST")).2.length ≤ MAX_REFINEMENT_ATTEMPTS ∧
    refinement_run c7llmGood c7prog ["ContrattoValido"] (some "prev") (some "HIST") =
      (c7GoodOut, [some "HIST"]) ∧
    refinement_run c7llm c7prog ["ContrattoValido"] (some "prev") (some "HIST") =
      (c7BadOut, [some "HIST",
        some (c7_base (some "HIST") ++ "\n\n" ++ build_retry_hint ["ContrattoValido"])]) := by
  refine ⟨C7_refinement_attempts.2.1 c7llmGood c7prog ["ContrattoValido"] (some "prev")
      (some "HIST"),
    (C7_refinement_attempts.2.2 c7llmGood c7prog ["ContrattoValido"] (some "prev")
      (some "HIST")).2.1 c7GoodOut rfl (by decide),
    ((C7_refinement_attempts.2.2 c7llm c7prog ["ContrattoValido"] (some "prev")
      (some "HIST")).2.2 c7BadOut rfl (by decide)).2 c7BadOut rfl⟩

/-- `Char.ofNat` evaluates on valid code points. -/
lemma char_toNat_ofNat {n : Nat} (h : n.isValidChar) : (Char.ofNat n).toNat = n := by
  rw [Char.ofNat, dif_pos h]
  rfl

/-- Lowercasing an identifier character never yields a space. -/
lemma toLower_ident_ne_space {c : Char} (h : isIdentChar c = true) : c.toLower ≠ ' ' := by
  intro he
  rw [Char.toLower] at he
  by_cases hc : c.toNat ≥ 65 ∧ c.toNat ≤ 90
  · rw [if_pos hc] at he
    have hv : (c.toNat + 32).isValidChar := Or.inl (by omega)
    have h32 := congrArg Char.toNat he
    rw [char_toNat_ofNat hv] at h32
    have : c.toNat + 32 = 32 := h32
    omega
  · rw [if_neg hc] at he
    rw [he] at h
    exact absurd h (by decide)

/-- The lowercasing of an all-identifier string never starts with
`"not "`. -/
lemma lower_ident_no_not {a : String}
    (hall : ∀ d ∈ a.data, isIdentChar d = true) :
    pyStartsWith (pyLower a) "not " = false := by
  by_contra hns
  simp only [Bool.not_eq_false] at hns
  rw [pyStartsWith, pyLower] at hns
  have hpre := List.isPrefixOf_iff_prefix.mp hns
  have hsp : ' ' ∈ a.data.map Char.toLower := hpre.subset (by decide)
  obtain ⟨d, hd, hd2⟩ := List.mem_map.mp hsp
  exact toLower_ident_ne_space (hall d hd) hd2

/-- A one-character needle is found exactly when the character occurs. -/
lemma containsSubL_single_of_not_mem {c : Char} : ∀ {l : List Char}, c ∉ l →
    containsSubL [c] l = false := by
  intro l
  induction l with
  | nil => intro h; rfl
  | cons d rest ih =>
    intro h
    rw [containsSubL]
    have hcd : ¬(c = d) := fun he => h (he ▸ List.mem_cons_self _ _)
    have h2 : c ∉ rest := fun hm => h (List.mem_cons_of_mem _ hm)
    rw [ih h2]
    simp [List.isPrefixOf, hcd]

/-- `_normalize_atom_text` is the identity on non-empty identifier
strings (the shape of every extracted predicate name). -/
lemma normalize_ident_id {a : String}
    (hne : a.data ≠ [])
    (hall : ∀ d ∈ a.data, isIdentChar d = true) :
    normalize_atom_text (some a) = a := by
  have hstrip : pyStrip a = a := by
    rw [pyStrip, stripL_eq_self]
    · intro c hc
      exact ident_not_ws (hall c (List.mem_of_mem_head? hc))
    · intro c hc
      exact ident_not_ws (hall c (List.mem_of_mem_getLast? hc))
  have hnemp : a ≠ "" := by
    intro h
    apply hne
    rw [h]
  have hcont : pyContains a "(" = false := by
    rw [pyContains]
    apply containsSubL_single_of_not_mem
    intro hm
    exact ident_not_char (hall _ hm) (by decide) rfl
  rw [normalize_atom_text]
  simp only [hstrip]
  rw [if_neg hnemp, lower_ident_no_not hall]
  simp [hcont]

/-- Every token of the regex pass is a non-empty identifier string. -/
lemma findPredTokens_ident : ∀ (l : List Char) (a : String), a ∈ findPredTokensL l →
    a.data ≠ [] ∧ ∀ d ∈ a.data, isIdentChar d = true := by
  intro l
  induction l using findPredTokensL.induct with
  | case1 =>
    intro a ha
    simp [findPredTokensL] at ha
  | case2 c rest h1 after rest2 heq ihr =>
    intro a ha
    rw [findPredTokensL] at ha
    simp only [h1, if_true] at ha
    have heq2 : List.dropWhile pyWS (List.dropWhile isIdentChar rest) = '(' :: rest2 := heq
    split at ha
    · rename_i rest3 heq3
      rw [heq2] at heq3
      injection heq3 with h4 h5
      subst h5
      rcases List.mem_cons.mp ha with h | h
      · subst h
        refine ⟨by simp, ?_⟩
        intro d hd
        rcases List.mem_cons.mp hd with h | h
        · subst h
          simp [isIdentChar, h1]
        · exact List.mem_takeWhile_imp h
      · exact ihr a h
    · rename_i hdef
      exact (hdef rest2 heq2).elim
  | case3 c rest h1 after hne ihr =>
    intro a ha
    rw [findPredTokensL] at ha
    simp only [h1, if_true] at ha
    exact ihr a ha
  | case4 c rest h1 ihr =>
    intro a ha
    rw [findPredTokensL] at ha
    simp only [if_neg h1] at ha
    exact ihr a ha

/-- Every fallback atom is a non-empty identifier string. -/
lemma fallbackAtoms_ident (raw : String) (a : String) (ha : a ∈ fallbackAtoms raw) :
    a.data ≠ [] ∧ ∀ d ∈ a.data, isIdentChar d = true := by
  rw [fallbackAtoms] at ha
  obtain ⟨piece, hp, hsome⟩ := List.mem_filterMap.mp ha
  simp only at hsome
  split at hsome
  · exact absurd hsome (by simp)
  · split at hsome
    · exact absurd hsome (by simp)
    · split at hsome
      · rename_i c rest heq hstart
        have haeq : a = ⟨c :: rest.takeWhile isIdentChar⟩ := by
          injection hsome with h
          exact h.symm
        subst haeq
        refine ⟨by simp, ?_⟩
        intro d hd
        rcases List.mem_cons.mp hd with h | h
        · subst h
          simp [isIdentChar, hstart]
        · exact List.mem_takeWhile_imp h
      · exact absurd hsome (by simp)

/-- Deduplication only keeps elements of the input list. -/
lemma dedup_go_subset : ∀ (l seen : List String) (x : String),
    x ∈ dedupFirstSeen.go seen l → x ∈ l := by
  intro l
  induction l with
  | nil =>
    intro seen x hx
    simp [dedupFirstSeen.go] at hx
  | cons y rest ih =>
    intro seen x hx
    rw [dedupFirstSeen.go] at hx
    split at hx
    · exact List.mem_cons_of_mem _ (ih _ _ hx)
    · rcases List.mem_cons.mp hx with h | h
      · exact h ▸ List.mem_cons_self _ _
      · exact List.mem_cons_of_mem _ (ih _ _ h)

/-- Every extracted predicate name is a non-empty identifier string. -/
lemma extract_ident (t : String) (a : String)
    (ha : a ∈ extract_predicate_names_from_text t) :
    a.data ≠ [] ∧ ∀ d ∈ a.data, isIdentChar d = true := by
  rw [extract_predicate_names_from_text] at ha
  split at ha
  · simp at ha
  · simp only at ha
    split at ha
    · have h1 := dedup_go_subset _ _ _ ha
      exact findPredTokens_ident _ a (List.mem_filter.mp h1).1
    · have h1 := dedup_go_subset _ _ _ ha
      exact fallbackAtoms_ident _ a (List.mem_filter.mp h1).1

/-- On an identifier atom (normalisation-invariant), one dedup-loop step
reduces to skip-or-keep on the atom itself. -/
lemma c2_step_eq (tnorm tpred : String) (m : String) (seen acc : List String)
    (hm : normalize_atom_text (some m) = m) :
    c2_step tnorm tpred (seen, acc) m =
      (if m = tnorm then (seen, acc)
       else if tpred ≠ "" && splitHead m '(' = tpred then (seen, acc)
       else if m ∈ seen then (seen, acc) else (m :: seen, acc ++ [m])) := by
  rw [c2_step]
  simp only [hm, ite_self]

/-- The dedup loop on identifier atoms equals filter-then-dedup. -/
lemma c2_fold_eq (tnorm tpred : String) :
    ∀ (ms : List String), (∀ m ∈ ms, normalize_atom_text (some m) = m) →
    ∀ (seen acc : List String),
    (ms.foldl (c2_step tnorm tpred) (seen, acc)).2 =
      acc ++ dedupFirstSeen.go seen (ms.filter fun m =>
        !(m = tnorm || (tpred ≠ "" && splitHead m '(' = tpred))) := by
  intro ms
  induction ms with
  | nil =>
    intro hm seen acc
    simp [dedupFirstSeen.go]
  | cons m rest ih =>
    intro hm seen acc
    have hm0 := hm m (List.mem_cons_self _ _)
    have hrest : ∀ x ∈ rest, normalize_atom_text (some x) = x :=
      fun x hx => hm x (List.mem_cons_of_mem _ hx)
    rw [List.foldl_cons, c2_step_eq tnorm tpred m seen acc hm0, List.filter_cons]
    by_cases h1 : m = tnorm
    · rw [if_pos h1]
      have hf : (!(m = tnorm || (tpred ≠ "" && splitHead m '(' = tpred))) = false := by
        simp [h1]
      simp only [hf, Bool.false_eq_true, if_false]
      exact ih hrest seen acc
    · rw [if_neg h1]
      by_cases h2 : (tpred ≠ "" && splitHead m '(' = tpred) = true
      · rw [if_pos h2]
        have h2p := h2
        simp only [Bool.and_eq_true, decide_eq_true_eq] at h2p
        have hf : (!(m = tnorm || (tpred ≠ "" && splitHead m '(' = tpred))) = false := by
          simp [h2p.1, h2p.2]
        simp only [hf, Bool.false_eq_true, if_false]
        exact ih hrest seen acc
      · rw [if_neg h2]
        have h2f : (tpred ≠ "" && splitHead m '(' = tpred) = false := by
          revert h2
          cases htest : (tpred ≠ "" && splitHead m '(' = tpred) <;> simp
        have ht : (!(m = tnorm || (tpred ≠ "" && splitHead m '(' = tpred))) = true := by
          simp only [Bool.not_eq_true', Bool.or_eq_false_iff, decide_eq_false_iff_not]
          refine ⟨h1, ?_⟩
          rw [h2f]
        simp only [ht, if_true]
        rw [dedupFirstSeen.go]
        by_cases h3 : m ∈ seen
        · rw [if_pos h3, if_pos h3]
          exact ih hrest seen acc
        · rw [if_neg h3, if_neg h3]
          rw [ih hrest (m :: seen) (acc ++ [m])]
          simp

/-- C2 spec-side definition, translated from the claim words (to be
compared with the embedded `compute_missing_links_for_query`): the
singleton query predicate name when no rule concludes the query atom or
its predicate; otherwise exactly the not-entailed condition conjuncts of
the concluding rules, deduplicated preserving first-seen order, never
including the query atom or its predicate. -/
def spec_missing_links (entails : String → Bool) (lp : LogicProgram) (qName : String) :
    List String :=
  let targetAtom := let n := normalize_atom_text lp.query; if n = "" then qName else n
  let tnorm := normalize_atom_text (some targetAtom)
  let tpred := splitHead tnorm '('
  let conclRules := rules_concluding lp targetAtom
  if conclRules = [] then
    [if splitHead tnorm '(' = "" then qName else splitHead tnorm '(']
  else
    dedupFirstSeen
      ((conclRules.flatMap fun r =>
          (extract_predicate_names_from_text (pyStrip r.condition)).filter
            fun a => !entails a).filter
        fun m => !(m = tnorm || (tpred ≠ "" && splitHead m '(' = tpred)))

/-- The embedded missing-links computation agrees with the spec-side
definition. -/
lemma compute_eq_spec (entails : String → Bool) (lp : LogicProgram) (qName : String) :
    compute_missing_links_for_query entails lp qName =
      spec_missing_links entails lp qName := by
  rw [compute_missing_links_for_query, spec_missing_links]
  simp only
  by_cases hcr : rules_concluding lp
      (if normalize_atom_text lp.query = "" then qName else normalize_atom_text lp.query) = []
  · rw [if_pos hcr, if_pos hcr]
    by_cases htn : normalize_atom_text (some (if normalize_atom_text lp.query = "" then qName
        else normalize_atom_text lp.query)) = ""
    · have h0 : splitHead "" '(' = "" := rfl
      rw [htn, h0]
      simp
    · rw [if_neg htn]
  · rw [if_neg hcr, if_neg hcr]
    have hmiss : ((rules_concluding lp (if normalize_atom_text lp.query = "" then qName
          else normalize_atom_text lp.query)).flatMap fun r =>
          let cond := pyStrip r.condition
          if cond = "" then []
          else (extract_predicate_names_from_text cond).filter fun a => !entails a) =
        (rules_concluding lp (if normalize_atom_text lp.query = "" then qName
          else normalize_atom_text lp.query)).flatMap fun r =>
          (extract_predicate_names_from_text (pyStrip r.condition)).filter
            fun a => !entails a := by
      congr 1
      funext r
      by_cases hc : pyStrip r.condition = ""
      · rw [hc]
        have hext : extract_predicate_names_from_text "" = [] := rfl
        rw [hext]
        simp
      · simp [hc]
    rw [hmiss]
    have hident : ∀ m ∈ (rules_concluding lp (if normalize_atom_text lp.query = "" then qName
        else normalize_atom_text lp.query)).flatMap fun r =>
          (extract_predicate_names_from_text (pyStrip r.condition)).filter
            fun a => !entails a,
        normalize_atom_text (some m) = m := by
      intro m hmem
      obtain ⟨r, hr, hmr⟩ := List.mem_flatMap.mp hmem
      obtain ⟨hne, hall⟩ := extract_ident _ _ (List.mem_filter.mp hmr).1
      exact normalize_ident_id hne hall
    rw [c2_fold_eq _ _ _ hident [] []]
    rw [List.nil_append]
    rfl

/-- C2: for every program whose solver state is satisfiable but whose
query is not entailed, the computed missing_links are the singleton query
predicate name when no rule concludes the query atom or its predicate,
and otherwise exactly the not-entailed condition conjuncts of the
concluding rules, deduplicated preserving first-seen order, never
including the query atom or its predicate. -/
theorem C2_missing_links (st : SolverState) (lp : LogicProgram) (query : Option String)
    (hsat : st.checkResult = .sat)
    (hq : extract_query_name query lp ≠ "")
    (hent : st.entails (extract_query_name query lp) = false) :
    (build_logic_feedback st lp query).missing_links =
      spec_missing_links st.entails lp (extract_query_name query lp) := by
  unfold build_logic_feedback
  rw [hsat]
  simp only [hq, if_false, hent, Bool.false_eq_true]
  exact compute_eq_spec st.entails lp (extract_query_name query lp)

/-- A satisfiable solver state that entails no atom (C2 witness). -/
def c2State : SolverState :=
  { checkResult := .sat, entails := fun _ => false, assertions := [], unsatCore := [] }

/-- A program with one rule concluding the query (C2 witness). -/
def c2Program : LogicProgram :=
  { dsl_version := "2.1",
    rules := [⟨"Inadempimento(d, c) and Mora(d)", "ContrattoValido(d, c)", none⟩],
    query := some "ContrattoValido(d, c)" }

/-- C2 witness: at a concrete satisfiable, non-entailing state the
feedback's missing links match the spec-side list (theorem application on
a program with one concluding rule), and on the same program without
rules the singleton query-predicate branch evaluates concretely. -/
theorem C2_missing_links_witness :
    c2State.checkResult = CheckResult.sat ∧
    extract_query_name none c2Program ≠ "" ∧
    c2State.entails (extract_query_name none c2Program) = false ∧
    (build_logic_feedback c2State c2Program none).missing_links =
      spec_missing_links c2State.entails c2Program (extract_query_name none c2Program) ∧
    (build_logic_feedback c2State { c2Program with rules := [] } none).missing_links =
      ["ContrattoValido"] := by
  refine ⟨rfl, by decide, rfl,
    C2_missing_links c2State c2Program none rfl (by decide) rfl, by decide⟩

/-- The refined program of C3: it declares `ContrattoValido` with arity 3
(canonical arity is 2). -/
def c3RefinedProgram : LogicProgram :=
  { dsl_version := "2.1",
    sorts := [("Debitore", ⟨some "primitive"⟩), ("Contratto", ⟨some "primitive"⟩)],
    constants := [],
    predicates := [("ContrattoValido", ⟨some 3, ["Debitore", "Contratto", "Contratto"]⟩)],
    facts := [], axioms := [], rules := [], query := none }

/-- The single guardrail issue C3 produces. -/
def c3Issue : GuardrailIssue :=
  ⟨"PREDICATE_ARITY_MISMATCH",
   "Predicate \x27ContrattoValido\x27 arity mismatch (expected 2, got 3)."⟩

/-- C3: a refined program declaring `ContrattoValido` with arity 3 fails
the guardrail with ok = false and exactly the one issue
PREDICATE_ARITY_MISMATCH, and the one-shot pipeline tail then returns a
success-shaped response (never an error): fallback_used = true, the v1
feedback and answer carried through, a guardrail_failed explanation, and
the fallback feedback attached as the v2 feedback. -/
theorem C3_guardrail_arity_fallback :
    (run_guardrail c3RefinedProgram = .ok ⟨false, [c3Issue]⟩ ∧
      c3Issue.code = "PREDICATE_ARITY_MISMATCH") ∧
    (∀ (solverOf : LogicProgram → SolverState × Option String) (llmOut : LLMOutputV2)
      (lpv1 : LogicProgram) (fbv1 : LogicFeedback) (ansv1 : String),
      llmOut.logic_program = c3RefinedProgram →
      ∃ r, run_once_tail solverOf llmOut lpv1 fbv1 ansv1 = .ok r ∧
        r.fallback_used = true ∧
        r.final_output = llmOut ∧
        r.feedback_v1 = fbv1 ∧
        r.answer_v1 = ansv1 ∧
        r.guardrail = ⟨false, [c3Issue]⟩ ∧
        r.explanation.status = "guardrail_failed" ∧
        r.fallback_feedback = some r.feedback_v2) := by
  have hg : run_guardrail c3RefinedProgram = .ok ⟨false, [c3Issue]⟩ := rfl
  refine ⟨⟨hg, rfl⟩, ?_⟩
  intro solverOf llmOut lpv1 fbv1 ansv1 hlp
  rcases hsol : solverOf lpv1 with ⟨sf, qf⟩
  refine ⟨{ final_output := llmOut
            feedback_v2 := build_logic_feedback sf lpv1 qf
            guardrail := ⟨false, [c3Issue]⟩
            explanation := synthesize_explanation llmOut.final_answer
              (build_logic_feedback sf lpv1 qf) ⟨false, [c3Issue]⟩
            fallback_used := true
            fallback_feedback := some (build_logic_feedback sf lpv1 qf)
            logic_program_v1 := lpv1
            feedback_v1 := fbv1
            answer_v1 := ansv1 }, ?_, rfl, rfl, rfl, rfl, rfl, ?_, rfl⟩
  · rw [run_once_tail, hlp, hg]
    unfold build_guardrail_failure_result
    rw [hsol]
    rfl
  · rfl

/-- A v2 LLM output carrying the C3 program. -/
def c3llmOut : LLMOutputV2 := ⟨"risposta v2", c3RefinedProgram, none⟩

/-- A trivial solver oracle for the C3 witness. -/
def c3solver : LogicProgram → SolverState × Option String :=
  fun _ => (⟨CheckResult.sat, fun _ => false, [], []⟩, none)

/-- C3 witness: the pipeline tail at a concrete oracle, v1 program,
feedback and answer. -/
theorem C3_guardrail_arity_fallback_witness :
    c3llmOut.logic_program = c3RefinedProgram ∧
    ∃ r, run_once_tail c3solver c3llmOut {}
        ⟨"consistent_entails", [], [], "ok"⟩ "risposta v1" = .ok r ∧
      r.fallback_used = true ∧
      r.final_output = c3llmOut ∧
      r.feedback_v1 = ⟨"consistent_entails", [], [], "ok"⟩ ∧
      r.answer_v1 = "risposta v1" ∧
      r.guardrail = ⟨false, [c3Issue]⟩ ∧
      r.explanation.status = "guardrail_failed" ∧
      r.fallback_feedback = some r.feedback_v2 :=
  ⟨rfl, C3_guardrail_arity_fallback.2 c3solver c3llmOut {}
    ⟨"consistent_entails", [], [], "ok"⟩ "risposta v1" rfl⟩

end NSLA
